import Mathlib

/-!
Verification of the h5animate binary codec (packages/libs/h5animate).

Shallow embedding conventions:
* A byte buffer (Node `Buffer`) is a `List Nat`; each element stands for one
  byte and is reduced mod 256 wherever the runtime would read it as a byte.
* A JavaScript number is modelled as an `Int` (the codec only ever writes and
  compares integer-valued numbers; float-specific behaviour is out of scope).
* JavaScript exceptions are modelled with `Except`: typed `H5AnimateError`
  values and the untyped `RangeError` / `TypeError` that Node primitives can
  raise are separated in `JsErr`.
* Error message strings (Chinese text in `errors.ts`) are not modelled; the
  structured fields (`code`, `position`, `expectedType`, `missingFields`,
  `fieldPath`) are.
-/

namespace H5A

/-- A byte buffer: the model of a Node `Buffer`. -/
abbrev Bytes := List Nat

/-- Error codes from `errors.ts` (`H5AnimateErrorCode`). -/
inductive H5AnimateErrorCode where
  | INVALID_SIGNATURE
  | INVALID_VERSION
  | CORRUPTED_HEADER
  | INVALID_IMAGE_DATA
  | INVALID_METADATA
  | FILE_TRUNCATED
  | SIZE_MISMATCH
  | VALIDATION_ERROR
  | TYPE_MISMATCH
  | MISSING_REQUIRED_FIELD
  | VALUE_OUT_OF_RANGE
  | INVALID_ARRAY_LENGTH
  | CONVERSION_FAILED
  | JSON_PARSE_ERROR
  | BASE64_DECODE_ERROR
  | WEBP_PROCESSING_ERROR
  | IMAGE_MERGE_ERROR
  | FRAME_EXTRACTION_ERROR
  | VALIDATION_ERROR_LEGACY
deriving Repr, DecidableEq

/-- The stable code string of each error code, as assigned in `errors.ts`. -/
def H5AnimateErrorCode.codeString : H5AnimateErrorCode → String
  | .INVALID_SIGNATURE => "H5A001"
  | .INVALID_VERSION => "H5A002"
  | .CORRUPTED_HEADER => "H5A003"
  | .INVALID_IMAGE_DATA => "H5A004"
  | .INVALID_METADATA => "H5A005"
  | .FILE_TRUNCATED => "H5A006"
  | .SIZE_MISMATCH => "H5A007"
  | .VALIDATION_ERROR => "H5A100"
  | .TYPE_MISMATCH => "H5A101"
  | .MISSING_REQUIRED_FIELD => "H5A102"
  | .VALUE_OUT_OF_RANGE => "H5A103"
  | .INVALID_ARRAY_LENGTH => "H5A104"
  | .CONVERSION_FAILED => "H5A200"
  | .JSON_PARSE_ERROR => "H5A201"
  | .BASE64_DECODE_ERROR => "H5A202"
  | .WEBP_PROCESSING_ERROR => "H5A300"
  | .IMAGE_MERGE_ERROR => "H5A301"
  | .FRAME_EXTRACTION_ERROR => "H5A302"
  | .VALIDATION_ERROR_LEGACY => "H5A008"

/-- The `H5AnimateError` class of `errors.ts`: the structured diagnostic
fields; the human-readable message is not modelled. -/
structure H5AnimateError where
  code : H5AnimateErrorCode
  position : Option Int := none
  expectedType : Option String := none
  actualType : Option String := none
  missingFields : Option (List String) := none
  fieldPath : Option String := none
deriving Repr, DecidableEq

/-- Any error a JavaScript call can raise: a typed `H5AnimateError`, or the
untyped `RangeError` / `TypeError` raised by Node and JS primitives. -/
inductive JsErr where
  | h5 (e : H5AnimateError)
  | rangeError
  | typeError
deriving Repr, DecidableEq

/-- `createInvalidSignatureError(actual)` of `errors.ts`: the actual signature
only appears in the (unmodelled) message text. -/
def createInvalidSignatureError (_actual : Bytes) : H5AnimateError :=
  { code := .INVALID_SIGNATURE, position := some 0, expectedType := some "ANIM" }

/-- `createInvalidMetadataError(reason, missingFields?)` of `errors.ts`. -/
def createInvalidMetadataError (missingFields : Option (List String) := none) :
    H5AnimateError :=
  { code := .INVALID_METADATA, missingFields := missingFields }

/-- `createValidationError(reason, missingFields?)` of `errors.ts`. -/
def createValidationError (missingFields : Option (List String) := none) :
    H5AnimateError :=
  { code := .VALIDATION_ERROR, missingFields := missingFields }

/-- `createConversionFailedError(reason)` of `errors.ts`. -/
def createConversionFailedError : H5AnimateError :=
  { code := .CONVERSION_FAILED }

/-- `createWebPProcessingError(reason)` of `errors.ts`. -/
def createWebPProcessingError : H5AnimateError :=
  { code := .WEBP_PROCESSING_ERROR }

/-- The error thrown by `BinaryParser.checkBounds` in `binary.ts`: code
`CORRUPTED_HEADER` carrying the current offset. -/
def corruptedHeaderAt (position : Int) : H5AnimateError :=
  { code := .CORRUPTED_HEADER, position := some position }

/-! ## Binary layer (`binary.ts`) -/

/-- The byte stored at integer index `i` of a buffer (0 when out of range;
bounds are re-checked by the callers we model before the access matters). -/
def byteAt (buf : Bytes) (i : Int) : Nat :=
  if 0 ≤ i then (buf.getD i.toNat 0) % 256 else 0

/-- Node `buffer.subarray(s, e)`: a negative index counts from the end of the
buffer, and both indices are clamped to `[0, length]`. -/
def subarray (buf : Bytes) (s e : Int) : Bytes :=
  let norm : Int → Nat := fun i =>
    if i < 0 then (buf.length + i).toNat else min i.toNat buf.length
  (buf.take (norm e)).drop (norm s)

/-- Node `ascii` DECODING of one byte: the high bit is cleared before the
byte is read as latin1 (Node Buffer documentation). -/
def asciiDecodeByte (b : Nat) : Nat := (b % 256) % 128

/-- Little-endian byte serialization of a `Nat` that fits in a u32. -/
def u32bytes (v : Nat) : Bytes :=
  [v % 256, v / 256 % 256, v / 65536 % 256, v / 16777216 % 256]

/-- `BinaryParser` of `binary.ts`: a buffer and a cursor. The cursor is an
`Int` because `readBytes` with a negative length (never bounds-rejected by
`checkBounds`) moves it backwards. -/
structure BinaryParser where
  buffer : Bytes
  offset : Int := 0
deriving Repr, DecidableEq

/-- `BinaryParser.checkBounds(bytesToRead)`: fails with `CORRUPTED_HEADER` at
the current offset exactly when `offset + bytesToRead > buffer.length`. -/
def BinaryParser.checkBounds (p : BinaryParser) (bytesToRead : Int) :
    Except H5AnimateError Unit :=
  if p.offset + bytesToRead > (p.buffer.length : Int) then
    .error (corruptedHeaderAt p.offset)
  else
    .ok ()

/-- `BinaryParser.readUInt32LE()`: bounds check, then a little-endian u32 read
at the cursor, advancing it by 4. -/
def BinaryParser.readUInt32LE (p : BinaryParser) :
    Except H5AnimateError (Nat × BinaryParser) :=
  match p.checkBounds 4 with
  | .error e => .error e
  | .ok () =>
    .ok (byteAt p.buffer p.offset + 256 * byteAt p.buffer (p.offset + 1) +
      65536 * byteAt p.buffer (p.offset + 2) +
      16777216 * byteAt p.buffer (p.offset + 3),
      { p with offset := p.offset + 4 })

/-- `BinaryParser.readString(length)`: bounds check, slice, decode as `ascii`
(high bit of each byte cleared), advancing the cursor by `length`. -/
def BinaryParser.readString (p : BinaryParser) (length : Int) :
    Except H5AnimateError (Bytes × BinaryParser) :=
  match p.checkBounds length with
  | .error e => .error e
  | .ok () =>
    .ok ((subarray p.buffer p.offset (p.offset + length)).map asciiDecodeByte,
      { p with offset := p.offset + length })

/-- `BinaryParser.readBytes(length)`: bounds check, zero-copy slice, advancing
the cursor by `length` (backwards when `length` is negative, which
`checkBounds` never rejects). -/
def BinaryParser.readBytes (p : BinaryParser) (length : Int) :
    Except H5AnimateError (Bytes × BinaryParser) :=
  match p.checkBounds length with
  | .error e => .error e
  | .ok () =>
    .ok (subarray p.buffer p.offset (p.offset + length),
      { p with offset := p.offset + length })

/-- `BinaryWriter` of `binary.ts`. `cap` is the `totalSize` given to
`Buffer.allocUnsafe`; `data` is the bytes written so far. The model
identifies the cursor with `data.length`, which is exact as long as no write
has been truncated at capacity (the only scenarios the theorems reach). -/
structure BinaryWriter where
  cap : Int
  data : Bytes := []
deriving Repr, DecidableEq

/-- `new BinaryWriter(totalSize)`: `Buffer.allocUnsafe` raises an untyped
RangeError for a negative size. The uninitialized contents are modelled as
zero bytes (see `BinaryWriter.getBuffer`). -/
def BinaryWriter.mkWriter (totalSize : Int) : Except JsErr BinaryWriter :=
  if totalSize < 0 then .error .rangeError
  else .ok { cap := totalSize }

/-- `BinaryWriter.writeString(value)`: `buffer.write(value, offset, "ascii")`
stores each char code mod 256 and silently truncates at capacity. -/
def BinaryWriter.writeString (w : BinaryWriter) (value : Bytes) : BinaryWriter :=
  { w with data := w.data ++ (value.map (· % 256)).take (w.cap - w.data.length).toNat }

/-- `BinaryWriter.writeUInt32LE(value)`: Node `buffer.writeUInt32LE` raises an
untyped RangeError when the value is outside `[0, 2^32)` or the write would
pass the end of the buffer; otherwise it appends 4 little-endian bytes. -/
def BinaryWriter.writeUInt32LE (w : BinaryWriter) (value : Int) :
    Except JsErr BinaryWriter :=
  if value < 0 ∨ value ≥ 4294967296 then .error .rangeError
  else if (w.data.length : Int) + 4 > w.cap then .error .rangeError
  else .ok { w with data := w.data ++ u32bytes value.toNat }

/-- `BinaryWriter.writeBuffer(source)`: `source.copy` moves bytes as they
are, silently truncates at capacity and never raises. -/
def BinaryWriter.writeBuffer (w : BinaryWriter) (source : Bytes) : BinaryWriter :=
  { w with data := w.data ++ source.take (w.cap - w.data.length).toNat }

/-- `BinaryWriter.getBuffer()`: the whole allocated buffer; bytes never
written keep their (unspecified) `allocUnsafe` contents, modelled as 0. -/
def BinaryWriter.getBuffer (w : BinaryWriter) : Bytes :=
  w.data ++ List.replicate ((w.cap - w.data.length).toNat) 0

/-! ## JavaScript value model

`JSON.parse` hands the decoder an untyped value, and `convertArraysToObjects`
walks it with dynamic member accesses, so the decoder side is modelled over a
JS-value type `Json`. Strings are lists of char codes (`Bytes`); numbers are
integers. Two host-semantics notes, both irrelevant to structural equality:
an object field holding `undefined` is identified with an absent field (as
JSON serialization and structural deep-equality do), and the object
constructor `mkObj` therefore drops such fields. -/

/-- A JavaScript value as the decoder sees it (JSON values plus `undefined`). -/
inductive Json where
  | null
  | undef
  | bool (b : Bool)
  | num (n : Int)
  | str (s : Bytes)
  | arr (elems : List Json)
  | obj (fields : List (Bytes × Json))
deriving Repr

/-- JavaScript truthiness for the values `Json` can hold (`NaN` has no
integer model; `-0` coincides with `0`). -/
def jsTruthy : Json → Bool
  | .null => false
  | .undef => false
  | .bool b => b
  | .num n => n ≠ 0
  | .str s => s ≠ []
  | .arr _ => true
  | .obj _ => true

/-- First-match lookup of a field in a JS object field list. -/
def jsLookup (fields : List (Bytes × Json)) (key : Bytes) : Option Json :=
  match fields with
  | [] => none
  | (k, v) :: rest => if k = key then some v else jsLookup rest key

/-- A JS member access `o.key`: TypeError on `null`/`undefined`, the field (or
`undefined`) on an object, `undefined` on every other primitive or array (the
keys the converter reads are never array/string built-ins). -/
def getField (o : Json) (key : Bytes) : Except Unit Json :=
  match o with
  | .null => .error ()
  | .undef => .error ()
  | .obj fields => .ok ((jsLookup fields key).getD .undef)
  | _ => .ok (.undef)

/-- A JS index access `o[i]` for a nonnegative integer index: TypeError on
`null`/`undefined`, the element (or `undefined`) on an array, a one-char
string on a string, `undefined` otherwise. -/
def jsIndex (o : Json) (i : Nat) : Except Unit Json :=
  match o with
  | .null => .error ()
  | .undef => .error ()
  | .arr elems => .ok ((elems.get? i).getD .undef)
  | .str s => .ok (((s.get? i).map (fun c => Json.str [c])).getD .undef)
  | _ => .ok (.undef)

/-- The JS nullish-coalescing operator `x ?? y`. -/
def nullish (x y : Json) : Json :=
  match x with
  | .null => y
  | .undef => y
  | _ => x

/-- JS object literal construction: fields whose value is `undefined` are
identified with absent fields (see the section comment). -/
def mkObj (fields : List (Bytes × Json)) : Json :=
  .obj (fields.filter (fun f => !(f.2 matches Json.undef)))

/-! ## JSON text: parser (model of `JSON.parse`)

The grammar is JSON restricted to integer numbers and without insignificant
whitespace (`JSON.stringify` emits none). String escapes: the model's
serializer (below) escapes exactly `"` and `\`, each as backslash-char, and
the parser inverts that; the named escapes and `\uXXXX` of full JSON are not
modelled (the values the codec writes never need them). -/

/-- Char codes of the JSON delimiters used below: 34 `"`, 92 backslash,
91 `[`, 93 `]`, 123 `LBRACE`, 125 `RBRACE`, 44 comma, 58 colon, 45 minus. -/
def isDigitCode (c : Nat) : Bool := 48 ≤ c ∧ c ≤ 57

/-- Body of a JSON string after the opening quote: ends at an unescaped
quote; a backslash takes the next char literally. -/
def parseStringBody : Bytes → Except Unit (Bytes × Bytes)
  | [] => .error ()
  | c :: rest =>
    if c = 34 then .ok ([], rest)
    else if c = 92 then
      match rest with
      | [] => .error ()
      | c2 :: rest2 =>
        match parseStringBody rest2 with
        | .error e => .error e
        | .ok (s, r) => .ok (c2 :: s, r)
    else
      match parseStringBody rest with
      | .error e => .error e
      | .ok (s, r) => .ok (c :: s, r)

/-- Greedy digit run: the digits read and the rest. -/
def parseDigits (input : Bytes) : Bytes × Bytes :=
  (input.takeWhile isDigitCode, input.dropWhile isDigitCode)

/-- Decimal value of a digit-code list. -/
def digitsVal (ds : Bytes) : Nat :=
  ds.foldl (fun acc c => acc * 10 + (c - 48)) 0

mutual

/-- One JSON value. Fuel bounds the recursion; `jsonParse` supplies
`input.length + 1`, which suffices because every recursive call is made
strictly after consuming at least one byte. -/
def parseValue : Nat → Bytes → Except Unit (Json × Bytes)
  | 0, _ => .error ()
  | _ + 1, [] => .error ()
  | fuel + 1, c :: rest =>
    if c = 110 then
      match rest with
      | 117 :: 108 :: 108 :: r => .ok (.null, r)
      | _ => .error ()
    else if c = 116 then
      match rest with
      | 114 :: 117 :: 101 :: r => .ok (.bool true, r)
      | _ => .error ()
    else if c = 102 then
      match rest with
      | 97 :: 108 :: 115 :: 101 :: r => .ok (.bool false, r)
      | _ => .error ()
    else if c = 34 then
      match parseStringBody rest with
      | .error e => .error e
      | .ok (s, r) => .ok (.str s, r)
    else if c = 91 then
      match rest with
      | [] => .error ()
      | c2 :: r2 =>
        if c2 = 93 then .ok (.arr [], r2)
        else
          match parseElems fuel (c2 :: r2) with
          | .error e => .error e
          | .ok (vs, r) => .ok (.arr vs, r)
    else if c = 123 then
      match rest with
      | [] => .error ()
      | c2 :: r2 =>
        if c2 = 125 then .ok (.obj [], r2)
        else
          match parseFields fuel (c2 :: r2) with
          | .error e => .error e
          | .ok (fs, r) => .ok (.obj fs, r)
    else if c = 45 then
      match parseDigits rest with
      | ([], _) => .error ()
      | (ds, r) => .ok (.num (-(digitsVal ds : Int)), r)
    else if isDigitCode c then
      match parseDigits (c :: rest) with
      | (ds, r) => .ok (.num (digitsVal ds : Int), r)
    else .error ()

/-- The elements of a nonempty JSON array, starting after `[`, consuming the
closing `]`. -/
def parseElems : Nat → Bytes → Except Unit (List Json × Bytes)
  | 0, _ => .error ()
  | fuel + 1, input =>
      match parseValue fuel input with
      | .error e => .error e
      | .ok (v, r) =>
        match r with
        | 44 :: r2 =>
            match parseElems fuel r2 with
            | .error e => .error e
            | .ok (vs, r3) => .ok (v :: vs, r3)
        | 93 :: r2 => .ok ([v], r2)
        | _ => .error ()

/-- The fields of a nonempty JSON object, starting after the opening brace,
consuming the closing brace. -/
def parseFields : Nat → Bytes → Except Unit (List (Bytes × Json) × Bytes)
  | 0, _ => .error ()
  | fuel + 1, 34 :: rest =>
      match parseStringBody rest with
      | .error e => .error e
      | .ok (k, r1) =>
        match r1 with
        | 58 :: r2 =>
            match parseValue fuel r2 with
            | .error e => .error e
            | .ok (v, r3) =>
              match r3 with
              | 44 :: r4 =>
                  match parseFields fuel r4 with
                  | .error e => .error e
                  | .ok (fs, r5) => .ok ((k, v) :: fs, r5)
              | 125 :: r4 => .ok ([(k, v)], r4)
              | _ => .error ()
        | _ => .error ()
  | _ + 1, _ => .error ()

end

/-- `JSON.parse` over a whole byte string: one value consuming all input. -/
def jsonParse (input : Bytes) : Except Unit Json :=
  match parseValue (input.length + 1) input with
  | .error e => .error e
  | .ok (v, rest) =>
    match rest with
    | [] => .ok v
    | _ => .error ()

/-! ## Data model (`types.ts`) and JSON field keys -/

/-- `SpriteDimension` of `types.ts`. -/
structure SpriteDimension where
  width : Int
  height : Int
deriving Repr, DecidableEq

/-- `SpriteInfo` of `types.ts`. `count` is a plain JS number on the encoder
side, so it is not forced to equal `dimensions.length`. -/
structure SpriteInfo where
  count : Int
  dimensions : List SpriteDimension
deriving Repr, DecidableEq

/-- `FileHeader` of `types.ts`; the u32 fields as read by the decoder. -/
structure FileHeader where
  signature : Bytes
  version : Nat
  imageDataSize : Nat
  metaDataSize : Nat
deriving Repr, DecidableEq

/-- `SoundMeta` of `types.ts`. -/
structure SoundMeta where
  name : Bytes
  volume : Option Int := none
  pitch : Option Int := none
deriving Repr, DecidableEq

/-- `H5AnimateObject` of `types.ts`. -/
structure H5AnimateObject where
  index : Int
  x : Int
  y : Int
  scale : Int
  opacity : Int
  mirror : Option Int := none
  rotate : Option Int := none
deriving Repr, DecidableEq

/-- `H5AnimateFrame` of `types.ts`. -/
structure H5AnimateFrame where
  sound : Option (List SoundMeta) := none
  objects : Option (List H5AnimateObject) := none
deriving Repr, DecidableEq

/-- `H5AnimateMeta` of `types.ts`. -/
structure H5AnimateMeta where
  ratio : Int
  frame : List H5AnimateFrame
deriving Repr, DecidableEq

/-- `DecodedH5Animate` of `types.ts`. The decoded metadata is whatever JS
value `JSON.parse` + `convertArraysToObjects` produced, hence `Json`. -/
structure DecodedH5Animate where
  meta : Json
  spriteInfo : SpriteInfo
  webpData : Bytes
deriving Repr

/-- The char codes of `"ANIM"` (`FILE_SIGNATURE`). -/
def FILE_SIGNATURE : Bytes := [65, 78, 73, 77]

/-- `CURRENT_VERSION` of `encoder.ts`. -/
def CURRENT_VERSION : Int := 1

/-- Char codes of the JSON key `"index"`. -/
def keyIndex : Bytes := [105, 110, 100, 101, 120]

/-- Char codes of the JSON key `"x"`. -/
def keyX : Bytes := [120]

/-- Char codes of the JSON key `"y"`. -/
def keyY : Bytes := [121]

/-- Char codes of the JSON key `"scale"`. -/
def keyScale : Bytes := [115, 99, 97, 108, 101]

/-- Char codes of the JSON key `"opacity"`. -/
def keyOpacity : Bytes := [111, 112, 97, 99, 105, 116, 121]

/-- Char codes of the JSON key `"mirror"`. -/
def keyMirror : Bytes := [109, 105, 114, 114, 111, 114]

/-- Char codes of the JSON key `"rotate"`. -/
def keyRotate : Bytes := [114, 111, 116, 97, 116, 101]

/-- Char codes of the JSON key `"sound"`. -/
def keySound : Bytes := [115, 111, 117, 110, 100]

/-- Char codes of the JSON key `"objects"`. -/
def keyObjects : Bytes := [111, 98, 106, 101, 99, 116, 115]

/-- Char codes of the JSON key `"ratio"`. -/
def keyRatio : Bytes := [114, 97, 116, 105, 111]

/-- Char codes of the JSON key `"frame"`. -/
def keyFrame : Bytes := [102, 114, 97, 109, 101]

/-- Char codes of the JSON key `"name"`. -/
def keyName : Bytes := [110, 97, 109, 101]

/-- Char codes of the JSON key `"volume"`. -/
def keyVolume : Bytes := [118, 111, 108, 117, 109, 101]

/-- Char codes of the JSON key `"pitch"`. -/
def keyPitch : Bytes := [112, 105, 116, 99, 104]

/-! ## Decoder (`decoder.ts`) -/

/-- `parseHeader(parser)` of `decoder.ts`: signature check, then version,
imageDataSize, metaDataSize. -/
def parseHeader (p : BinaryParser) :
    Except H5AnimateError (FileHeader × BinaryParser) :=
  match p.readString 4 with
  | .error e => .error e
  | .ok (signature, p) =>
    if signature ≠ FILE_SIGNATURE then
      .error (createInvalidSignatureError signature)
    else
      match p.readUInt32LE with
      | .error e => .error e
      | .ok (version, p) =>
        match p.readUInt32LE with
        | .error e => .error e
        | .ok (imageDataSize, p) =>
          match p.readUInt32LE with
          | .error e => .error e
          | .ok (metaDataSize, p) =>
            .ok ({ signature, version, imageDataSize, metaDataSize }, p)

/-- The dimension-reading loop of `parseSpriteInfo`. -/
def parseSpriteDims : Nat → BinaryParser →
    Except H5AnimateError (List SpriteDimension × BinaryParser)
  | 0, p => .ok ([], p)
  | n + 1, p =>
      match p.readUInt32LE with
      | .error e => .error e
      | .ok (w, p) =>
        match p.readUInt32LE with
        | .error e => .error e
        | .ok (h, p) =>
          match parseSpriteDims n p with
          | .error e => .error e
          | .ok (rest, p) =>
            .ok ({ width := (w : Int), height := (h : Int) } :: rest, p)

/-- `parseSpriteInfo(parser)` of `decoder.ts`: count, then count
(width, height) pairs. -/
def parseSpriteInfo (p : BinaryParser) :
    Except H5AnimateError (SpriteInfo × BinaryParser) :=
  match p.readUInt32LE with
  | .error e => .error e
  | .ok (count, p) =>
    match parseSpriteDims count p with
    | .error e => .error e
    | .ok (dimensions, p) => .ok ({ count := (count : Int), dimensions }, p)

/-- `getSpriteInfoSize(spriteInfo)` of `decoder.ts`/`encoder.ts`:
4 bytes for count + 8 per sprite. -/
def getSpriteInfoSize (spriteInfo : SpriteInfo) : Int :=
  4 + spriteInfo.count * 8

/-- Sequential `Array.prototype.map` with a callback that can throw: stops at
the first error. -/
def mapExcept {a b e : Type} (f : a → Except e b) : List a → Except e (List b)
  | [] => .ok []
  | x :: xs =>
    match f x with
    | .error err => .error err
    | .ok y =>
      match mapExcept f xs with
      | .error err => .error err
      | .ok ys => .ok (y :: ys)

/-- `convertArrayToObject(objArray)` of `decoder.ts`, over the dynamic value
the JSON parser produced: seven indexed reads, `?? 0` on mirror/rotate. -/
def convertArrayToObject (objArray : Json) : Except Unit Json :=
  match jsIndex objArray 0, jsIndex objArray 1, jsIndex objArray 2,
      jsIndex objArray 3, jsIndex objArray 4, jsIndex objArray 5,
      jsIndex objArray 6 with
  | .ok v0, .ok v1, .ok v2, .ok v3, .ok v4, .ok v5, .ok v6 =>
    .ok (mkObj [(keyIndex, v0), (keyX, v1), (keyY, v2), (keyScale, v3),
      (keyOpacity, v4), (keyMirror, nullish v5 (.num 0)),
      (keyRotate, nullish v6 (.num 0))])
  | _, _, _, _, _, _, _ => .error ()

/-- The per-frame body of `convertArraysToObjects`:
`{ sound: frame.sound, objects: frame.objects?.map(convertArrayToObject) }`.
A TypeError (`.error`) arises when `frame` is nullish or `frame.objects` is a
non-nullish value without an array `map`. -/
def convertFrameDyn (frame : Json) : Except Unit Json :=
  match getField frame keySound with
  | .error e => .error e
  | .ok soundField =>
    match getField frame keyObjects with
    | .error e => .error e
    | .ok objectsField =>
      let objectsVal : Except Unit Json :=
        match objectsField with
        | .null => .ok Json.undef
        | .undef => .ok Json.undef
        | .arr xs =>
          match mapExcept convertArrayToObject xs with
          | .error e => .error e
          | .ok ys => .ok (Json.arr ys)
        | _ => .error ()
      match objectsVal with
      | .error e => .error e
      | .ok ov => .ok (mkObj [(keySound, soundField), (keyObjects, ov)])

/-- `convertArraysToObjects(rawMeta)` of `decoder.ts` over the dynamic parsed
value: early return when `rawMeta.frame` is falsy, else rebuild
`{ ratio, frame }` mapping each frame. -/
def convertArraysToObjects (rawMeta : Json) : Except Unit Json :=
  match getField rawMeta keyFrame with
  | .error e => .error e
  | .ok frameField =>
    if jsTruthy frameField = false then
      .ok rawMeta
    else
      match getField rawMeta keyRatio with
      | .error e => .error e
      | .ok ratioField =>
        let framesVal : Except Unit Json :=
          match frameField with
          | .arr xs =>
            match mapExcept convertFrameDyn xs with
            | .error e => .error e
            | .ok ys => .ok (Json.arr ys)
          | _ => .error ()
        match framesVal with
        | .error e => .error e
        | .ok frames => .ok (mkObj [(keyRatio, ratioField), (keyFrame, frames)])

/-- `decodeH5Animate(buffer)` of `decoder.ts`: header, sprite table, webp
payload of size `imageDataSize - spriteInfoSize`, metadata JSON, dynamic
array-to-object conversion. -/
def decodeH5Animate (buffer : Bytes) : Except JsErr DecodedH5Animate :=
  let p : BinaryParser := { buffer := buffer }
  match parseHeader p with
  | .error e => .error (.h5 e)
  | .ok (header, p) =>
  match parseSpriteInfo p with
  | .error e => .error (.h5 e)
  | .ok (spriteInfo, p) =>
  let spriteInfoSize := getSpriteInfoSize spriteInfo
  let webpDataSize : Int := (header.imageDataSize : Int) - spriteInfoSize
  match p.readBytes webpDataSize with
  | .error e => .error (.h5 e)
  | .ok (webpData, p) =>
  match p.readBytes (header.metaDataSize : Int) with
  | .error e => .error (.h5 e)
  | .ok (metaBuffer, _) =>
  match jsonParse metaBuffer with
  | .error _ => .error (.h5 (createInvalidMetadataError))
  | .ok rawMeta =>
  match convertArraysToObjects rawMeta with
  | .error _ => .error .typeError
  | .ok meta => .ok { meta := meta, spriteInfo := spriteInfo, webpData := webpData }

/-! ## JSON serialization (model of `JSON.stringify` with `metaReplacer`) -/

/-- Decimal digit codes of a `Nat`, most significant first; empty for 0. The
first argument is structural fuel (any value at least `n` gives the digits
of `n`). -/
def natDigitsAux : Nat → Nat → Bytes
  | 0, _ => []
  | _ + 1, 0 => []
  | fuel + 1, n => natDigitsAux fuel (n / 10) ++ [n % 10 + 48]

/-- Decimal digit codes of a `Nat` (`"0"` for zero). -/
def natDigits (n : Nat) : Bytes :=
  if n = 0 then [48] else natDigitsAux n n

/-- JSON text of an integer. -/
def printInt (n : Int) : Bytes :=
  if n < 0 then 45 :: natDigits n.natAbs else natDigits n.toNat

/-- String-body escaping: quote and backslash get a backslash prefix. -/
def escapeStr (s : Bytes) : Bytes :=
  s.flatMap (fun c => if c = 34 ∨ c = 92 then [92, c] else [c])

/-- JSON text of a string. -/
def printStr (s : Bytes) : Bytes :=
  34 :: escapeStr s ++ [34]

/-- Comma-join of printed JSON items. -/
def joinComma : List Bytes → Bytes
  | [] => []
  | [x] => x
  | x :: xs => x ++ 44 :: joinComma xs

/-- JSON text of an array given its printed elements. -/
def arrPrint (elems : List Bytes) : Bytes :=
  91 :: joinComma elems ++ [93]

/-- JSON text of an object given its keys and printed values. -/
def objPrint (fields : List (Bytes × Bytes)) : Bytes :=
  123 :: joinComma (fields.map (fun kv => printStr kv.1 ++ 58 :: kv.2)) ++ [125]

/-- `convertObjectToArray(obj)` of `encoder.ts`:
`[index, x, y, scale, opacity, mirror ?? 0, rotate ?? 0]`. -/
def convertObjectToArray (obj : H5AnimateObject) : List Int :=
  [obj.index, obj.x, obj.y, obj.scale, obj.opacity,
    obj.mirror.getD 0, obj.rotate.getD 0]

/-- The key/printed-value pairs `JSON.stringify` emits for a `SoundMeta`
(absent optional fields are dropped). -/
def soundPrintPairs (s : SoundMeta) : List (Bytes × Bytes) :=
  [(keyName, printStr s.name)] ++
    (match s.volume with | none => [] | some v => [(keyVolume, printInt v)]) ++
    (match s.pitch with | none => [] | some v => [(keyPitch, printInt v)])

/-- JSON text of one `SoundMeta`. -/
def printSound (s : SoundMeta) : Bytes :=
  objPrint (soundPrintPairs s)

/-- JSON text of one `H5AnimateObject` in its on-disk 7-tuple form (the
effect of `metaReplacer`). -/
def printTuple (o : H5AnimateObject) : Bytes :=
  arrPrint ((convertObjectToArray o).map printInt)

/-- The key/printed-value pairs `JSON.stringify` emits for a frame
(undefined-valued keys are dropped by `JSON.stringify`). -/
def framePrintPairs (f : H5AnimateFrame) : List (Bytes × Bytes) :=
  (match f.sound with
    | none => []
    | some ss => [(keySound, arrPrint (ss.map printSound))]) ++
  (match f.objects with
    | none => []
    | some os => [(keyObjects, arrPrint (os.map printTuple))])

/-- JSON text of one frame. -/
def printFrame (f : H5AnimateFrame) : Bytes :=
  objPrint (framePrintPairs f)

/-- `JSON.stringify(meta, metaReplacer)` of `encoder.ts` (then UTF-8 encoded
by `Buffer.from`): the metadata JSON bytes. -/
def stringifyMeta (m : H5AnimateMeta) : Bytes :=
  objPrint [(keyRatio, printInt m.ratio),
    (keyFrame, arrPrint (m.frame.map printFrame))]

/-! ## Encoder (`encoder.ts`) -/

/-- `validateEncodeInput(meta, spriteInfo, webpData)` of `encoder.ts`. The
nested checks (`typeof meta.ratio === "number"`, `Array.isArray(...)`,
`Buffer.isBuffer`) hold by construction over the typed model, so only the
null/undefined presence checks can add missing fields. -/
def validateEncodeInput (meta : Option H5AnimateMeta)
    (spriteInfo : Option SpriteInfo) (webpData : Option Bytes) :
    Except H5AnimateError Unit :=
  let missingFields :=
    (if meta.isNone then ["meta"] else []) ++
    (if spriteInfo.isNone then ["spriteInfo"] else []) ++
    (if webpData.isNone then ["webpData"] else [])
  if missingFields ≠ [] then
    .error (createValidationError (some missingFields))
  else
    .ok ()

/-- The dimension-writing loop of `encodeH5Animate`. -/
def writeDimensions (w : BinaryWriter) :
    List SpriteDimension → Except JsErr BinaryWriter
  | [] => .ok w
  | d :: rest =>
    match w.writeUInt32LE d.width with
    | .error e => .error e
    | .ok w1 =>
      match w1.writeUInt32LE d.height with
      | .error e => .error e
      | .ok w2 => writeDimensions w2 rest

/-- `encodeH5Animate(meta, spriteInfo, webpData)` of `encoder.ts`. Inputs are
`Option` so that the null/undefined cases `validateEncodeInput` guards
against are representable. -/
def encodeH5Animate (meta? : Option H5AnimateMeta)
    (spriteInfo? : Option SpriteInfo) (webpData? : Option Bytes) :
    Except JsErr Bytes :=
  match validateEncodeInput meta? spriteInfo? webpData? with
  | .error e => .error (.h5 e)
  | .ok () =>
  match meta?, spriteInfo?, webpData? with
  | some meta, some spriteInfo, some webpData =>
    let metaBuffer := stringifyMeta meta
    let spriteInfoSize := getSpriteInfoSize spriteInfo
    let totalImageDataSize := spriteInfoSize + (webpData.length : Int)
    let headerSize : Int := 16
    let totalSize := headerSize + totalImageDataSize + (metaBuffer.length : Int)
    match BinaryWriter.mkWriter totalSize with
    | .error e => .error e
    | .ok writer =>
    let writer := writer.writeString FILE_SIGNATURE
    match writer.writeUInt32LE CURRENT_VERSION with
    | .error e => .error e
    | .ok writer =>
    match writer.writeUInt32LE totalImageDataSize with
    | .error e => .error e
    | .ok writer =>
    match writer.writeUInt32LE (metaBuffer.length : Int) with
    | .error e => .error e
    | .ok writer =>
    match writer.writeUInt32LE spriteInfo.count with
    | .error e => .error e
    | .ok writer =>
    match writeDimensions writer spriteInfo.dimensions with
    | .error e => .error e
    | .ok writer =>
    let writer := writer.writeBuffer webpData
    let writer := writer.writeBuffer metaBuffer
    .ok writer.getBuffer
  | _, _, _ => .error .typeError

/-! ## Legacy converter (`converter.ts`) -/

/-- The `se` field of a legacy `.animate` file: a single global sound name or
a sparse frame-index-to-name map. -/
inductive SeField where
  | str (s : Bytes)
  | map (entries : List (Nat × Bytes))
deriving Repr, DecidableEq

/-- `FrameLayer` of `types.ts`:
`[index, x, y, scale, opacity, mirror?, rotate?]`. -/
structure FrameLayer where
  index : Int
  x : Int
  y : Int
  scale : Int
  opacity : Int
  mirror : Option Int := none
  rotate : Option Int := none
deriving Repr, DecidableEq

/-- `LegacyAnimateFile` of `types.ts`. -/
structure LegacyAnimateFile where
  ratio : Int
  se : Option SeField := none
  pitch : Option (List (Nat × Int)) := none
  bitmaps : List Bytes := []
  frame_max : Int
  frames : List (List FrameLayer)
deriving Repr, DecidableEq

/-- First-match lookup in a sparse map keyed by frame index. -/
def sparseLookup {α : Type} (entries : List (Nat × α)) (k : Nat) : Option α :=
  match entries with
  | [] => none
  | (i, v) :: rest => if i = k then some v else sparseLookup rest k

/-- JS truthiness of `legacy.se` (`if (!legacy.se)`): absent and the empty
string are falsy; every map object, even empty, is truthy. -/
def seTruthy : Option SeField → Bool
  | none => false
  | some (.str s) => s ≠ []
  | some (.map _) => true

/-- `validateLegacyFormat(data)` of `converter.ts` over the typed model: the
presence and type checks hold by construction, so the one remaining check
with content is `frame_max >= 0`. -/
def validateLegacyFormat (legacy : LegacyAnimateFile) :
    Except H5AnimateError Unit :=
  if legacy.frame_max < 0 then .error (createValidationError) else .ok ()

/-- `convertSoundData(legacy, frameIndex)` of `converter.ts`. A string `se`
contributes only at frame 0; a map `se` contributes where its entry is truthy
(`if (soundName)`), with pitch attached when `pitch[frameIndex] !== undefined`. -/
def convertSoundData (legacy : LegacyAnimateFile) (frameIndex : Nat) :
    Option (List SoundMeta) :=
  if seTruthy legacy.se = false then none
  else
    let sounds : List SoundMeta :=
      match legacy.se with
      | some (.str s) => if frameIndex = 0 then [{ name := s }] else []
      | some (.map entries) =>
          match sparseLookup entries frameIndex with
          | some soundName =>
              if soundName ≠ [] then
                [{ name := soundName,
                   pitch := match legacy.pitch with
                     | none => none
                     | some pm => sparseLookup pm frameIndex }]
              else []
          | none => []
      | none => []
    if sounds = [] then none else some sounds

/-- `convertFrameLayer(layer)` of `converter.ts`: tuple to object with
`mirror`/`rotate` defaulted to 0 (`?? 0`). -/
def convertFrameLayer (layer : FrameLayer) : H5AnimateObject :=
  { index := layer.index, x := layer.x, y := layer.y, scale := layer.scale,
    opacity := layer.opacity, mirror := some (layer.mirror.getD 0),
    rotate := some (layer.rotate.getD 0) }

/-- `convertMetadata(legacy)` of `converter.ts`: one frame per index below
`frame_max`; `objects` set only when the layer list is nonempty, `sound` set
only when `convertSoundData` returns a value. `legacy.frames[i] || []` falls
back only for an absent element (an empty array is truthy). -/
def convertMetadata (legacy : LegacyAnimateFile) : H5AnimateMeta :=
  { ratio := legacy.ratio,
    frame := (List.range legacy.frame_max.toNat).map (fun i =>
      let frameData := (legacy.frames.get? i).getD []
      { objects :=
          if frameData.length > 0 then some (frameData.map convertFrameLayer)
          else none,
        sound := convertSoundData legacy i }) }

/-! ## Sprite-sheet frame extraction (`webp.ts`)

The sharp image library is an external capability: its measurement of the
sheet (`sharp(webpBuffer).metadata()`) enters as the `sheetMeta` parameter,
and the crop it is asked to perform is the function's result. The
try/catch wrapper of `extractFrameByIndex` rethrows `H5AnimateError` values
unchanged, so the bounds error below escapes as constructed. -/

/-- The width/height sharp reports for the sprite sheet (either may be
missing, defaulted to 0 by `?? 0` in the source). -/
structure ImageMeta where
  width : Option Nat := none
  height : Option Nat := none
deriving Repr, DecidableEq

/-- `ExtractFrameOptions` of `webp.ts`. -/
structure ExtractFrameOptions where
  width : Option Int := none
  height : Int
deriving Repr, DecidableEq

/-- The rectangle handed to `sharp(...).extract(...)`. -/
structure ExtractRegion where
  left : Int
  top : Int
  width : Int
  height : Int
deriving Repr, DecidableEq

/-- `extractFrameByIndex(webpBuffer, frameIndex, options)` of `webp.ts`:
`top = frameIndex * height`; fails when `top + height` passes the measured
sheet height; otherwise requests the crop
`{ left: 0, top, width: options.width ?? measured width, height }`. -/
def extractFrameByIndex (sheetMeta : ImageMeta) (frameIndex : Int)
    (options : ExtractFrameOptions) : Except JsErr ExtractRegion :=
  let height := options.height
  let spriteWidth : Int := options.width.getD ((sheetMeta.width.getD 0 : Nat) : Int)
  let spriteHeight : Int := ((sheetMeta.height.getD 0 : Nat) : Int)
  let top := frameIndex * height
  if top + height > spriteHeight then
    .error (.h5 createWebPProcessingError)
  else
    .ok { left := 0, top := top, width := spriteWidth, height := height }

/-! ## Expected decoded values (spec side)

The round-trip claim compares the decoder output with the input metadata
"object-shaped, defaults normalized". The following definitions spell that
expected value out as a `Json`: every `AnimatedObject` appears with all seven
fields, absent `mirror`/`rotate` replaced by 0, and absent optional
sound/objects/volume/pitch fields simply missing. -/

/-- The JS object a `SoundMeta` appears as after a JSON round-trip. -/
def soundJson (s : SoundMeta) : Json :=
  .obj ([(keyName, .str s.name)] ++
    (match s.volume with | none => [] | some v => [(keyVolume, .num v)]) ++
    (match s.pitch with | none => [] | some v => [(keyPitch, .num v)]))

/-- The normalized object shape of an `H5AnimateObject` the decoder is
expected to return: all seven fields, `mirror`/`rotate` defaulted to 0. -/
def objectJsonNormalized (o : H5AnimateObject) : Json :=
  .obj [(keyIndex, .num o.index), (keyX, .num o.x), (keyY, .num o.y),
    (keyScale, .num o.scale), (keyOpacity, .num o.opacity),
    (keyMirror, .num (o.mirror.getD 0)), (keyRotate, .num (o.rotate.getD 0))]

/-- The expected decoded shape of one frame. -/
def frameJsonNormalized (f : H5AnimateFrame) : Json :=
  .obj ((match f.sound with
      | none => []
      | some ss => [(keySound, .arr (ss.map soundJson))]) ++
    (match f.objects with
      | none => []
      | some os => [(keyObjects, .arr (os.map objectJsonNormalized))]))

/-- The expected decoded shape of the whole metadata: structurally equal to
the input with defaults normalized. -/
def metaJsonNormalized (m : H5AnimateMeta) : Json :=
  .obj [(keyRatio, .num m.ratio),
    (keyFrame, .arr (m.frame.map frameJsonNormalized))]

/-- The JS value `JSON.parse` yields for a serialized 7-tuple. -/
def tupleJson (o : H5AnimateObject) : Json :=
  .arr ((convertObjectToArray o).map Json.num)

/-- The JS value `JSON.parse` yields for a serialized frame (objects still in
tuple form). -/
def frameRawJson (f : H5AnimateFrame) : Json :=
  .obj ((match f.sound with
      | none => []
      | some ss => [(keySound, .arr (ss.map soundJson))]) ++
    (match f.objects with
      | none => []
      | some os => [(keyObjects, .arr (os.map tupleJson))]))

/-- The JS value `JSON.parse` yields for the serialized metadata. -/
def rawMetaJson (m : H5AnimateMeta) : Json :=
  .obj [(keyRatio, .num m.ratio),
    (keyFrame, .arr (m.frame.map frameRawJson))]

/-- The sprite-table bytes the encoder writes for a dimension list. -/
def dimsBytes : List SpriteDimension → Bytes
  | [] => []
  | d :: rest => u32bytes d.width.toNat ++ u32bytes d.height.toNat ++ dimsBytes rest

/-- Validity of the sprite info per the claim and the on-disk format:
`count` equals the number of dimensions, and every width/height is a positive
u32 value. -/
def ValidSpriteInfo (si : SpriteInfo) : Prop :=
  si.count = (si.dimensions.length : Int) ∧
    ∀ d ∈ si.dimensions,
      0 < d.width ∧ d.width < 4294967296 ∧ 0 < d.height ∧ d.height < 4294967296

/-- Well-formedness of `AnimationMetadata` per spec section 3: positive
ratio, nonempty sound names, object index at least 0, opacity within
`[0, 255]`, mirror 0 or 1 when present. -/
def WellFormedMeta (m : H5AnimateMeta) : Prop :=
  0 < m.ratio ∧
    ∀ f ∈ m.frame,
      (∀ ss ∈ f.sound.getD [], ss.name ≠ []) ∧
      ∀ o ∈ f.objects.getD [],
        0 ≤ o.index ∧ 0 ≤ o.opacity ∧ o.opacity ≤ 255 ∧
          o.mirror.getD 0 ∈ ([0, 1] : List Int)

instance (si : SpriteInfo) : Decidable (ValidSpriteInfo si) := by
  unfold ValidSpriteInfo; infer_instance

instance (m : H5AnimateMeta) : Decidable (WellFormedMeta m) := by
  unfold WellFormedMeta; infer_instance

/-- The u32 value stored little-endian at byte offset `i` of a buffer. -/
def storedU32 (buf : Bytes) (i : Int) : Nat :=
  byteAt buf i + 256 * byteAt buf (i + 1) + 65536 * byteAt buf (i + 2) +
    16777216 * byteAt buf (i + 3)

/-! ## Supporting lemmas -/

theorem subarray_of_bounds (buf : Bytes) (s e : Int) (h0 : 0 ≤ s) (hse : s ≤ e)
    (he : e ≤ (buf.length : Int)) :
    subarray buf s e = (buf.take e.toNat).drop s.toNat := by
  unfold subarray
  have h1 : ¬ e < 0 := by omega
  have h2 : ¬ s < 0 := by omega
  have h3 : min e.toNat buf.length = e.toNat := by omega
  have h4 : min s.toNat buf.length = s.toNat := by omega
  simp only [h1, h2, if_false, h3, h4]

theorem subarray_length_of_bounds (buf : Bytes) (s e : Int) (h0 : 0 ≤ s)
    (hse : s ≤ e) (he : e ≤ (buf.length : Int)) :
    ((subarray buf s e).length : Int) = e - s := by
  rw [subarray_of_bounds buf s e h0 hse he]
  simp only [List.length_drop, List.length_take]
  omega

/-- C10: over any `BinaryParser` with its cursor inside the buffer and any
nonnegative byte count `n`, each read operation (`readUInt32LE`,
`readString(n)`, `readBytes(n)`) throws the `CORRUPTED_HEADER` error carrying
the current offset exactly when `offset + n` exceeds the buffer length, and
otherwise returns normally with the cursor advanced by exactly `n` (by 4 for
`readUInt32LE`) and still inside the buffer, the returned slice holding
exactly `n` bytes. -/
theorem binary_parser_bounds_safety (p : BinaryParser) (n : Int) (hn : 0 ≤ n)
    (h0 : 0 ≤ p.offset) (hoff : p.offset ≤ (p.buffer.length : Int)) :
    (p.offset + n > (p.buffer.length : Int) →
      p.readBytes n = .error (corruptedHeaderAt p.offset) ∧
      p.readString n = .error (corruptedHeaderAt p.offset) ∧
      (n = 4 → p.readUInt32LE = .error (corruptedHeaderAt p.offset))) ∧
    (p.offset + n ≤ (p.buffer.length : Int) →
      (∃ bs, p.readBytes n = .ok (bs, { p with offset := p.offset + n }) ∧
        (bs.length : Int) = n ∧ p.offset + n ≤ (p.buffer.length : Int)) ∧
      (∃ s, p.readString n = .ok (s, { p with offset := p.offset + n }) ∧
        (s.length : Int) = n) ∧
      (n = 4 → ∃ v, p.readUInt32LE = .ok (v, { p with offset := p.offset + 4 }))) := by
  constructor
  · intro hover
    refine ⟨?_, ?_, ?_⟩
    · simp only [BinaryParser.readBytes, BinaryParser.checkBounds, if_pos hover]
    · simp only [BinaryParser.readString, BinaryParser.checkBounds, if_pos hover]
    · intro h4
      subst h4
      simp only [BinaryParser.readUInt32LE, BinaryParser.checkBounds, if_pos hover]
  · intro hin
    have hnot : ¬ p.offset + n > (p.buffer.length : Int) := by omega
    refine ⟨?_, ?_, ?_⟩
    · refine ⟨subarray p.buffer p.offset (p.offset + n), ?_, ?_, hin⟩
      · simp only [BinaryParser.readBytes, BinaryParser.checkBounds, if_neg hnot]
      · rw [subarray_length_of_bounds p.buffer p.offset (p.offset + n) h0 (by omega) hin]
        omega
    · refine ⟨(subarray p.buffer p.offset (p.offset + n)).map asciiDecodeByte, ?_, ?_⟩
      · simp only [BinaryParser.readString, BinaryParser.checkBounds, if_neg hnot]
      · rw [List.length_map,
          subarray_length_of_bounds p.buffer p.offset (p.offset + n) h0 (by omega) hin]
        omega
    · intro h4
      subst h4
      refine ⟨byteAt p.buffer p.offset + 256 * byteAt p.buffer (p.offset + 1) +
        65536 * byteAt p.buffer (p.offset + 2) +
        16777216 * byteAt p.buffer (p.offset + 3), ?_⟩
      simp only [BinaryParser.readUInt32LE, BinaryParser.checkBounds, if_neg hnot]

/-- Witness for C10 at a concrete parser: a 6-byte buffer with the cursor at
2 admits a 4-byte read to the exact end. -/
theorem binary_parser_bounds_safety_witness :
    ∃ v, BinaryParser.readUInt32LE { buffer := [1, 2, 3, 4, 5, 6], offset := 2 } =
      .ok (v, { buffer := [1, 2, 3, 4, 5, 6], offset := 2 + 4 }) :=
  ((binary_parser_bounds_safety { buffer := [1, 2, 3, 4, 5, 6], offset := 2 } 4
    (by norm_num) (by norm_num) (by norm_num)).2 (by norm_num)).2.2 rfl

/-- C3 counterexample: the 4-byte buffer `[0xC1, 'N', 'I', 'M']` does not
start with the ASCII bytes of `"ANIM"`, yet decoding does not fail with
InvalidSignature at position 0 — Node's ascii decoding clears the high bit,
so `0xC1` reads as `A`, the signature check passes, and decoding fails later
with `CORRUPTED_HEADER` (H5A003) at position 4. -/
theorem signature_rejection_counterexample :
    [193, 78, 73, 77].take 4 ≠ FILE_SIGNATURE ∧
    decodeH5Animate [193, 78, 73, 77] = .error (.h5 (corruptedHeaderAt 4)) ∧
    (corruptedHeaderAt 4).code ≠ .INVALID_SIGNATURE ∧
    (corruptedHeaderAt 4).position ≠ some 0 := by
  refine ⟨by decide, by rfl, by decide, by decide⟩

/-- C3 amended: decoding any buffer of length at least 4 whose first 4 bytes,
after Node ascii decoding clears each byte's high bit, do not spell `"ANIM"`
fails with an InvalidSignature error (code H5A001) whose position is 0. -/
theorem signature_rejection_masked (buf : Bytes) (h4 : 4 ≤ buf.length)
    (hsig : (buf.take 4).map asciiDecodeByte ≠ FILE_SIGNATURE) :
    decodeH5Animate buf =
      .error (.h5 { code := .INVALID_SIGNATURE, position := some 0,
                    expectedType := some "ANIM" }) := by
  have hnot : ¬ ((0 : Int) + 4 > ((buf.length : Nat) : Int)) := by
    push_cast
    omega
  have hsub : subarray buf 0 (0 + 4) = buf.take 4 := by
    rw [subarray_of_bounds buf 0 (0 + 4) (by omega) (by omega) (by push_cast; omega)]
    norm_num
    omega
  have hread : BinaryParser.readString { buffer := buf } 4 =
      .ok ((buf.take 4).map asciiDecodeByte, { buffer := buf, offset := 0 + 4 }) := by
    simp only [BinaryParser.readString, BinaryParser.checkBounds]
    rw [if_neg hnot, hsub]
  have hhead : parseHeader { buffer := buf } =
      .error (createInvalidSignatureError ((buf.take 4).map asciiDecodeByte)) := by
    simp only [parseHeader, hread]
    rw [if_pos hsig]
  simp only [decodeH5Animate, hhead]
  rfl

/-- Witness for C3 amended: the buffer `"XXXX"` is rejected with
InvalidSignature at position 0. -/
theorem signature_rejection_masked_witness :
    decodeH5Animate [88, 88, 88, 88] =
      .error (.h5 { code := .INVALID_SIGNATURE, position := some 0,
                    expectedType := some "ANIM" }) :=
  signature_rejection_masked [88, 88, 88, 88] (by norm_num) (by decide)

/-- C8: encoding with both `meta` and `spriteInfo` null raises one
ValidationError whose `missingFields` holds both `"meta"` and
`"spriteInfo"`, whatever the (present) webp buffer is. -/
theorem validation_aggregation_both_missing (webpData : Bytes) :
    encodeH5Animate none none (some webpData) =
      .error (.h5 { code := .VALIDATION_ERROR,
                    missingFields := some ["meta", "spriteInfo"] }) := rfl

/-- C5 counterexample: extracting frame 2 of height 50 from a sheet measured
100 by 50 is out of range, but the error raised carries code H5A300
(WEBP_PROCESSING_ERROR), not the FrameExtractionError code H5A302 the claim
names — `extractFrameByIndex` builds its bounds error with
`createWebPProcessingError`. -/
theorem frame_extraction_code_counterexample :
    extractFrameByIndex { width := some 100, height := some 50 } 2 { height := 50 } =
      .error (.h5 createWebPProcessingError) ∧
    createWebPProcessingError.code ≠ .FRAME_EXTRACTION_ERROR ∧
    createWebPProcessingError.code.codeString = "H5A300" ∧
    H5AnimateErrorCode.FRAME_EXTRACTION_ERROR.codeString = "H5A302" := by
  refine ⟨by rfl, by decide, by rfl, by rfl⟩

/-- C5 amended: for every sheet measurement and every frame index and height
with `index*height + height` larger than the measured sheet height,
`extractFrameByIndex` raises an `H5AnimateError` — with code H5A300
(WEBP_PROCESSING_ERROR), not H5A302. -/
theorem extract_out_of_range_webp_error (sheetMeta : ImageMeta)
    (frameIndex : Int) (options : ExtractFrameOptions)
    (hover : frameIndex * options.height + options.height >
      ((sheetMeta.height.getD 0 : Nat) : Int)) :
    extractFrameByIndex sheetMeta frameIndex options =
      .error (.h5 createWebPProcessingError) := by
  simp only [extractFrameByIndex]
  rw [if_pos hover]

/-- Witness for C5 amended at the counterexample's concrete input. -/
theorem extract_out_of_range_webp_error_witness :
    extractFrameByIndex { width := some 100, height := some 50 } 2 { height := 50 } =
      .error (.h5 createWebPProcessingError) :=
  extract_out_of_range_webp_error { width := some 100, height := some 50 } 2
    { height := 50 } (by norm_num)

/-- C7 counterexample: a legacy file whose `se` is the empty string. The
claim says frame 0 then gets `sound=[{name:""}]`, but `if (!legacy.se)`
treats the empty string as falsy and `convertSoundData` returns no sound at
all. -/
theorem sound_empty_name_counterexample :
    convertSoundData { ratio := 1, se := some (.str []), frame_max := 1,
                       frames := [] } 0 = none ∧
    convertSoundData { ratio := 1, se := some (.str []), frame_max := 1,
                       frames := [] } 0 ≠ some [{ name := [] }] := by
  refine ⟨by rfl, by decide⟩

/-- C7 amended: with a single nonempty string `se`, exactly frame 0 gets the
one-element sound list; with a map `se`, frame `i` gets a one-element sound
list exactly when the map entry at `i` is a nonempty name, and that sound
carries `pitch` exactly when the sparse pitch map has an entry at `i`. An
empty-string name (falsy in JS) produces no sound. -/
theorem legacy_sound_mapping_amended (legacy : LegacyAnimateFile) (i : Nat) :
    (∀ s, legacy.se = some (.str s) → s ≠ [] →
      convertSoundData legacy i =
        if i = 0 then some [{ name := s }] else none) ∧
    (∀ entries, legacy.se = some (.map entries) →
      convertSoundData legacy i =
        match sparseLookup entries i with
        | some soundName =>
            if soundName ≠ [] then
              some [{ name := soundName,
                      pitch := match legacy.pitch with
                        | none => none
                        | some pm => sparseLookup pm i }]
            else none
        | none => none) := by
  constructor
  · intro s hse hs
    unfold convertSoundData
    rw [hse]
    simp only [seTruthy, hs]
    by_cases hi : i = 0
    · simp [hi, hs]
    · simp [hi]
  · intro entries hse
    unfold convertSoundData
    rw [hse]
    simp only [seTruthy]
    rcases hlk : sparseLookup entries i with _ | nm
    · simp [hlk]
    · by_cases hnm : nm = []
      · simp [hlk, hnm]
      · simp [hlk, hnm]

/-- A concrete legacy file realizing the spec's sound-mapping example:
`se={2:"x"}`, `pitch={2:3}`. -/
def legacySoundExample : LegacyAnimateFile :=
  { ratio := 1, se := some (.map [(2, [120])]), pitch := some [(2, 3)],
    frame_max := 3, frames := [] }

/-- Witness for C7 amended at the spec's example: frame 2 gets the sound
with its pitch. -/
theorem legacy_sound_mapping_amended_witness :
    convertSoundData legacySoundExample 2 =
      some [{ name := [120], pitch := some 3 }] := by
  have h := (legacy_sound_mapping_amended legacySoundExample 2).2
    [(2, [120])] rfl
  simpa [legacySoundExample] using h

/-- C9: for every legacy file the validator accepts, `convertMetadata`
produces exactly `frame_max` frames, and every frame whose legacy layer list
is absent or empty has its `objects` field left undefined (`none`), never an
empty array. -/
theorem convert_metadata_frames (legacy : LegacyAnimateFile)
    (hv : validateLegacyFormat legacy = .ok ()) :
    (((convertMetadata legacy).frame.length : Int) = legacy.frame_max) ∧
    ∀ i : Nat, (i : Int) < legacy.frame_max →
      (legacy.frames.get? i = none ∨ legacy.frames.get? i = some []) →
      ∃ fr, (convertMetadata legacy).frame.get? i = some fr ∧ fr.objects = none := by
  have hmax : 0 ≤ legacy.frame_max := by
    unfold validateLegacyFormat at hv
    by_contra hneg
    rw [if_pos (by omega)] at hv
    exact Except.noConfusion hv
  constructor
  · simp only [convertMetadata, List.length_map, List.length_range]
    omega
  · intro i hi hempty
    have hilt : i < legacy.frame_max.toNat := by omega
    have hdata : (legacy.frames[i]?).getD [] = [] := by
      rcases hempty with h | h <;>
        (rw [List.get?_eq_getElem?] at h; simp [h])
    refine ⟨{ sound := convertSoundData legacy i }, ?_, rfl⟩
    simp only [convertMetadata, List.get?_eq_getElem?, List.getElem?_map,
      List.getElem?_range hilt, Option.map_some]
    simp [hdata]

/-- A concrete legacy file with 2 frames, the second one without a layer
entry. -/
def legacyTwoFrames : LegacyAnimateFile :=
  { ratio := 1, frame_max := 2,
    frames := [[{ index := 0, x := 1, y := 2, scale := 100, opacity := 255 }]] }

/-- Witness for C9 at `legacyTwoFrames`. -/
theorem convert_metadata_frames_witness :
    ((((convertMetadata legacyTwoFrames).frame.length : Nat) : Int) = 2) ∧
    ∃ fr, (convertMetadata legacyTwoFrames).frame.get? 1 = some fr ∧
      fr.objects = none := by
  have h := convert_metadata_frames legacyTwoFrames rfl
  exact ⟨h.1, h.2 1 (by norm_num [legacyTwoFrames]) (by left; rfl)⟩

/-- Inversion for `readUInt32LE`: a successful read keeps the buffer and
advances the cursor by 4. -/
theorem readUInt32LE_ok_inv (p q : BinaryParser) (v : Nat)
    (h : p.readUInt32LE = .ok (v, q)) :
    q.buffer = p.buffer ∧ q.offset = p.offset + 4 := by
  unfold BinaryParser.readUInt32LE at h
  split at h
  · exact absurd h (by simp)
  · rw [Except.ok.injEq, Prod.mk.injEq] at h
    rw [← h.2]
    exact ⟨rfl, rfl⟩

/-- Inversion for `readString`: a successful read keeps the buffer and
advances the cursor by the requested length. -/
theorem readString_ok_inv (p q : BinaryParser) (n : Int) (s : Bytes)
    (h : p.readString n = .ok (s, q)) :
    q.buffer = p.buffer ∧ q.offset = p.offset + n := by
  unfold BinaryParser.readString at h
  split at h
  · exact absurd h (by simp)
  · rw [Except.ok.injEq, Prod.mk.injEq] at h
    rw [← h.2]
    exact ⟨rfl, rfl⟩

/-- Inversion for `parseHeader`: success keeps the buffer and leaves the
cursor at 16. -/
theorem parseHeader_ok_inv (p q : BinaryParser) (hdr : FileHeader)
    (h : parseHeader p = .ok (hdr, q)) :
    q.buffer = p.buffer ∧ q.offset = p.offset + 16 := by
  unfold parseHeader at h
  split at h
  · exact absurd h (by simp)
  case _ sig p1 heq1 =>
    split at h
    · exact absurd h (by simp)
    split at h
    · exact absurd h (by simp)
    case _ v1 p2 heq2 =>
      split at h
      · exact absurd h (by simp)
      case _ v2 p3 heq3 =>
        split at h
        · exact absurd h (by simp)
        case _ v3 p4 heq4 =>
          rw [Except.ok.injEq, Prod.mk.injEq] at h
          obtain ⟨hb1, ho1⟩ := readString_ok_inv _ _ _ _ heq1
          obtain ⟨hb2, ho2⟩ := readUInt32LE_ok_inv _ _ _ heq2
          obtain ⟨hb3, ho3⟩ := readUInt32LE_ok_inv _ _ _ heq3
          obtain ⟨hb4, ho4⟩ := readUInt32LE_ok_inv _ _ _ heq4
          rw [← h.2]
          constructor
          · rw [hb4, hb3, hb2, hb1]
          · omega

/-- Inversion for the sprite-dimension loop: success keeps the buffer and
advances the cursor by 8 per dimension, reading back as many dimensions as
requested. -/
theorem parseSpriteDims_ok_inv (n : Nat) (p q : BinaryParser)
    (dims : List SpriteDimension)
    (h : parseSpriteDims n p = .ok (dims, q)) :
    q.buffer = p.buffer ∧ q.offset = p.offset + 8 * n ∧ dims.length = n := by
  induction n generalizing p q dims with
  | zero =>
    unfold parseSpriteDims at h
    rw [Except.ok.injEq, Prod.mk.injEq] at h
    rw [← h.2, ← h.1]
    exact ⟨rfl, by omega, rfl⟩
  | succ m ih =>
    unfold parseSpriteDims at h
    split at h
    · exact absurd h (by simp)
    case _ w p1 heq1 =>
      split at h
      · exact absurd h (by simp)
      case _ hv p2 heq2 =>
        split at h
        · exact absurd h (by simp)
        case _ rest p3 heq3 =>
          rw [Except.ok.injEq, Prod.mk.injEq] at h
          obtain ⟨hb1, ho1⟩ := readUInt32LE_ok_inv _ _ _ heq1
          obtain ⟨hb2, ho2⟩ := readUInt32LE_ok_inv _ _ _ heq2
          obtain ⟨hb3, ho3, hlen⟩ := ih _ _ _ heq3
          refine ⟨?_, ?_, ?_⟩
          · rw [← h.2, hb3, hb2, hb1]
          · rw [← h.2]; omega
          · rw [← h.1]; simp [hlen]

/-- Inversion for `parseSpriteInfo`: success keeps the buffer, advances the
cursor by `4 + 8*count`, and yields as many dimensions as the count read. -/
theorem parseSpriteInfo_ok_inv (p q : BinaryParser) (si : SpriteInfo)
    (h : parseSpriteInfo p = .ok (si, q)) :
    q.buffer = p.buffer ∧ q.offset = p.offset + getSpriteInfoSize si ∧
      si.count = (si.dimensions.length : Int) ∧ 0 ≤ si.count := by
  unfold parseSpriteInfo at h
  split at h
  · exact absurd h (by simp)
  case _ cnt p1 heq1 =>
    split at h
    · exact absurd h (by simp)
    case _ dims p2 heq2 =>
      rw [Except.ok.injEq, Prod.mk.injEq] at h
      obtain ⟨hb1, ho1⟩ := readUInt32LE_ok_inv _ _ _ heq1
      obtain ⟨hb2, ho2, hlen⟩ := parseSpriteDims_ok_inv _ _ _ _ heq2
      have hsi : si = { count := (cnt : Int), dimensions := dims } := h.1.symm
      refine ⟨by rw [← h.2, hb2, hb1], ?_, ?_, ?_⟩
      · rw [← h.2, hsi]
        unfold getSpriteInfoSize
        simp only []
        omega
      · rw [hsi]
        simp [hlen]
      · rw [hsi]
        simp

/-- C2 amended: when the computed pixel-payload size
`imageDataSize - (4 + 8*count)` exceeds the bytes remaining after the sprite
table, decoding fails with the bounds error CORRUPTED_HEADER (H5A003) at the
sprite-table end. (A negative computed size does NOT fail - see the
counterexample - because `checkBounds` only rejects reads past the end.) -/
theorem decode_payload_overrun_fails (buf : Bytes) (hdr : FileHeader)
    (si : SpriteInfo) (p1 p2 : BinaryParser)
    (hh : parseHeader { buffer := buf } = .ok (hdr, p1))
    (hs : parseSpriteInfo p1 = .ok (si, p2))
    (hover : (hdr.imageDataSize : Int) - getSpriteInfoSize si >
      (buf.length : Int) - p2.offset) :
    decodeH5Animate buf = .error (.h5 (corruptedHeaderAt p2.offset)) := by
  have hb1 : p1.buffer = buf := (parseHeader_ok_inv _ _ _ hh).1
  have hb2 : p2.buffer = p1.buffer := (parseSpriteInfo_ok_inv _ _ _ hs).1
  simp only [decodeH5Animate, hh, hs]
  simp only [BinaryParser.readBytes, BinaryParser.checkBounds]
  rw [if_pos (by rw [hb2, hb1]; omega)]

/-- A 20-byte buffer that declares 100 bytes of image data but holds none:
signature, version 1, imageDataSize 100, metaDataSize 0, sprite count 0. -/
def truncatedImageBuf : Bytes :=
  [65, 78, 73, 77] ++ u32bytes 1 ++ u32bytes 100 ++ u32bytes 0 ++ u32bytes 0

/-- Witness for C2 amended at `truncatedImageBuf`: the declared payload (96
bytes after the empty sprite table) exceeds the 0 remaining bytes, and
decoding fails with CORRUPTED_HEADER at offset 20. -/
theorem decode_payload_overrun_fails_witness :
    decodeH5Animate truncatedImageBuf = .error (.h5 (corruptedHeaderAt 20)) :=
  decode_payload_overrun_fails truncatedImageBuf
    { signature := FILE_SIGNATURE, version := 1, imageDataSize := 100,
      metaDataSize := 0 }
    { count := 0, dimensions := [] }
    { buffer := truncatedImageBuf, offset := 16 }
    { buffer := truncatedImageBuf, offset := 20 }
    rfl rfl (by decide)

/-- A 28-byte buffer whose header declares imageDataSize 4 while its sprite
table alone takes 12 bytes, so the computed pixel-payload size is -8; after
the sprite table the cursor is moved BACK to byte 20, and bytes 20-27 (the
ASCII digits "22222222", placed there as the height field) are then read as
the 8-byte metadata JSON. -/
def negativePayloadBuf : Bytes :=
  [65, 78, 73, 77] ++ u32bytes 1 ++ u32bytes 4 ++ u32bytes 8 ++ u32bytes 1 ++
    [50, 50, 50, 50] ++ [50, 50, 50, 50]

/-- C2 counterexample: on `negativePayloadBuf` the computed pixel-payload
size is negative (4 - 12 = -8), yet decoding does not fail with any
size/truncation error - it SUCCEEDS, returning the number 22222222 as the
metadata, because `readBytes(-8)` passes `checkBounds` and moves the cursor
backwards into the sprite table. -/
theorem decode_negative_payload_counterexample :
    parseHeader { buffer := negativePayloadBuf } =
      .ok ({ signature := FILE_SIGNATURE, version := 1, imageDataSize := 4,
             metaDataSize := 8 },
        { buffer := negativePayloadBuf, offset := 16 }) ∧
    ((4 : Int) - getSpriteInfoSize
      { count := 1, dimensions := [{ width := 842150450, height := 842150450 }] }
      < 0) ∧
    decodeH5Animate negativePayloadBuf =
      .ok { meta := Json.num 22222222,
            spriteInfo := { count := 1,
                            dimensions := [{ width := 842150450,
                                             height := 842150450 }] },
            webpData := [] } := by
  refine ⟨by rfl, by norm_num [getSpriteInfoSize], by rfl⟩

/-- Inversion for `writeUInt32LE`: success means the value was a u32, the
write fit, and 4 little-endian bytes were appended. -/
theorem writeUInt32LE_ok_inv (w w2 : BinaryWriter) (v : Int)
    (h : w.writeUInt32LE v = .ok w2) :
    0 ≤ v ∧ v < 4294967296 ∧ (w.data.length : Int) + 4 ≤ w.cap ∧
      w2.cap = w.cap ∧ w2.data = w.data ++ u32bytes v.toNat := by
  unfold BinaryWriter.writeUInt32LE at h
  split at h
  · exact absurd h (by simp)
  split at h
  · exact absurd h (by simp)
  rw [Except.ok.injEq] at h
  rw [← h]
  refine ⟨by omega, by omega, by omega, rfl, rfl⟩

/-- Inversion for the dimension-writing loop: success keeps the capacity and
only appends bytes. -/
theorem writeDimensions_ok_inv (dims : List SpriteDimension)
    (w w2 : BinaryWriter) (h : writeDimensions w dims = .ok w2) :
    w2.cap = w.cap ∧ ∃ tail, w2.data = w.data ++ tail := by
  induction dims generalizing w with
  | nil =>
    unfold writeDimensions at h
    rw [Except.ok.injEq] at h
    exact ⟨by rw [← h], [], by rw [← h]; simp⟩
  | cons d rest ih =>
    unfold writeDimensions at h
    split at h
    · exact absurd h (by simp)
    case _ w1 heq1 =>
      split at h
      · exact absurd h (by simp)
      case _ wB heq2 =>
        obtain ⟨_, _, _, hc1, hd1⟩ := writeUInt32LE_ok_inv _ _ _ heq1
        obtain ⟨_, _, _, hc2, hd2⟩ := writeUInt32LE_ok_inv _ _ _ heq2
        obtain ⟨hcr, tail, hdr⟩ := ih _ h
        refine ⟨by rw [hcr, hc2, hc1], u32bytes d.width.toNat ++
          u32bytes d.height.toNat ++ tail, ?_⟩
        rw [hdr, hd2, hd1]
        simp

/-- The little-endian u32 bytes stored after an 8-byte prefix read back, at
offset 8, as the stored value. -/
theorem storedU32_at8 (l8 : Bytes) (hl : l8.length = 8) (v : Nat)
    (hv : v < 4294967296) (tail : Bytes) :
    storedU32 (l8 ++ (u32bytes v ++ tail)) 8 = v := by
  have hb : ∀ (j : Int) (i : Nat), j = 8 + (i : Int) → i < 4 →
      byteAt (l8 ++ (u32bytes v ++ tail)) j =
        (u32bytes v).getD i 0 % 256 := by
    intro j i hj hi
    unfold byteAt
    rw [if_pos (by omega)]
    rw [show j.toNat = l8.length + i from by omega]
    rw [List.getD_append_right _ _ _ _ (by omega)]
    rw [show l8.length + i - l8.length = i from by omega]
    rw [List.getD_append _ _ _ _ (by simp [u32bytes]; omega)]
  unfold storedU32
  rw [hb 8 0 (by norm_num) (by norm_num), hb (8 + 1) 1 (by norm_num) (by norm_num),
    hb (8 + 2) 2 (by norm_num) (by norm_num), hb (8 + 3) 3 (by norm_num) (by norm_num)]
  simp only [u32bytes, List.getD]
  norm_num
  omega

/-- The u32 at offset 8 only depends on the first 12 bytes. -/
theorem storedU32_take12 (buf : Bytes) :
    storedU32 (buf.take 12) 8 = storedU32 buf 8 := by
  unfold storedU32 byteAt
  have hg : ∀ k : Nat, k < 12 → (buf.take 12).getD k 0 = buf.getD k 0 := by
    intro k hk
    rw [List.getD_eq_getElem?_getD, List.getD_eq_getElem?_getD,
      List.getElem?_take, if_pos hk]
  norm_num [hg]

/-- C4: every buffer `encodeH5Animate` produces stores, at byte offset 8, the
u32 `4 + 8*spriteInfo.count + webpData.length` (the imageDataSize field). -/
theorem encoder_size_invariant (m : H5AnimateMeta) (si : SpriteInfo)
    (w : Bytes) (buf : Bytes)
    (h : encodeH5Animate (some m) (some si) (some w) = .ok buf) :
    (storedU32 buf 8 : Int) = 4 + 8 * si.count + (w.length : Int) := by
  unfold encodeH5Animate validateEncodeInput at h
  simp only [Option.isNone_some] at h
  norm_num at h
  split at h
  · exact absurd h (by simp)
  case _ writer0 heqW =>
    have hcap : writer0 = { cap := 16 + (getSpriteInfoSize si +
        (w.length : Int)) + ((stringifyMeta m).length : Int), data := [] } := by
      unfold BinaryWriter.mkWriter at heqW
      split at heqW
      · exact absurd heqW (by simp)
      · rw [Except.ok.injEq] at heqW
        rw [← heqW]
    split at h
    · exact absurd h (by simp)
    case _ w1 heqV =>
      split at h
      · exact absurd h (by simp)
      case _ w2 heqI =>
        split at h
        · exact absurd h (by simp)
        case _ w3 heqM =>
          split at h
          · exact absurd h (by simp)
          case _ w4 heqC =>
            split at h
            · exact absurd h (by simp)
            case _ w5 heqD =>
              obtain ⟨hv1a, hv1b, hf1, hc1, hd1⟩ := writeUInt32LE_ok_inv _ _ _ heqV
              obtain ⟨hv2a, hv2b, hf2, hc2, hd2⟩ := writeUInt32LE_ok_inv _ _ _ heqI
              obtain ⟨hv3a, hv3b, hf3, hc3, hd3⟩ := writeUInt32LE_ok_inv _ _ _ heqM
              obtain ⟨hv4a, hv4b, hf4, hc4, hd4⟩ := writeUInt32LE_ok_inv _ _ _ heqC
              obtain ⟨hc5, tailD, hd5⟩ := writeDimensions_ok_inv _ _ _ heqD
              rw [Except.ok.injEq] at h
              -- the capacity is at least 16 (both sizes written are
              -- nonnegative), so the signature write is not truncated
              have hsig : w1.data = FILE_SIGNATURE ++ u32bytes 1 := by
                rw [hd1]
                rw [hcap]
                unfold BinaryWriter.writeString
                simp only [FILE_SIGNATURE, CURRENT_VERSION]
                norm_num
                rw [List.take_of_length_le (by simp; omega)]
                rfl
              have hpre : buf.take 12 = FILE_SIGNATURE ++ (u32bytes 1 ++
                  u32bytes (getSpriteInfoSize si + (w.length : Int)).toNat) := by
                rw [← h]
                unfold BinaryWriter.getBuffer BinaryWriter.writeBuffer
                simp only []
                rw [hd5, hd4, hd3, hd2, hsig]
                simp only [List.append_assoc]
                rw [List.take_append_eq_append_take,
                  List.take_append_eq_append_take,
                  List.take_append_eq_append_take]
                simp [FILE_SIGNATURE, u32bytes]
              rw [← storedU32_take12, hpre]
              rw [show FILE_SIGNATURE ++ (u32bytes 1 ++
                  u32bytes (getSpriteInfoSize si + (w.length : Int)).toNat) =
                  (FILE_SIGNATURE ++ u32bytes 1) ++
                    (u32bytes (getSpriteInfoSize si + (w.length : Int)).toNat ++ [])
                from by simp]
              rw [storedU32_at8 (FILE_SIGNATURE ++ u32bytes 1) (by rfl) _
                (by omega) []]
              unfold getSpriteInfoSize at hv2a ⊢
              omega

/-- Witness for C4: a concrete successful encode (empty metadata frames, one
2-byte payload, zero sprites) stores 4 + 0 + 2 at offset 8. -/
theorem encoder_size_invariant_witness :
    (storedU32 [65, 78, 73, 77, 1, 0, 0, 0, 6, 0, 0, 0, 22, 0, 0, 0, 0, 0, 0,
      0, 9, 8, 123, 34, 114, 97, 116, 105, 111, 34, 58, 49, 44, 34, 102, 114,
      97, 109, 101, 34, 58, 91, 93, 125] 8 : Int)
      = 4 + 8 * (0 : Int) + ((2 : Nat) : Int) :=
  encoder_size_invariant { ratio := 1, frame := [] }
    { count := 0, dimensions := [] } [9, 8] _ (by rfl)

/-- Length of the encoded sprite table body. -/
theorem dimsBytes_length (dims : List SpriteDimension) :
    (dimsBytes dims).length = 8 * dims.length := by
  induction dims with
  | nil => rfl
  | cons d rest ih =>
    unfold dimsBytes
    simp [ih, u32bytes]
    omega

/-- Forward run of the dimension-writing loop: with in-range values and
enough room, it appends exactly the sprite-table bytes. -/
theorem writeDimensions_ok_of (dims : List SpriteDimension)
    (w0 : BinaryWriter)
    (hdims : ∀ d ∈ dims, 0 ≤ d.width ∧ d.width < 4294967296 ∧
      0 ≤ d.height ∧ d.height < 4294967296)
    (hfit : (w0.data.length : Int) + 8 * dims.length ≤ w0.cap) :
    writeDimensions w0 dims = .ok { cap := w0.cap, data := w0.data ++ dimsBytes dims } := by
  induction dims generalizing w0 with
  | nil =>
    unfold writeDimensions dimsBytes
    simp
  | cons d rest ih =>
    obtain ⟨hw0, hw32, hh0, hh32⟩ := hdims d (by simp)
    have hfit2 : (w0.data.length : Int) + 8 * (rest.length : Int) + 8 ≤ w0.cap := by
      simp only [List.length_cons] at hfit
      push_cast at hfit ⊢
      omega
    have hstep1 : w0.writeUInt32LE d.width =
        .ok { cap := w0.cap, data := w0.data ++ u32bytes d.width.toNat } := by
      unfold BinaryWriter.writeUInt32LE
      rw [if_neg (by omega), if_neg (by omega)]
    have hstep2 : BinaryWriter.writeUInt32LE
        { cap := w0.cap, data := w0.data ++ u32bytes d.width.toNat } d.height =
        .ok { cap := w0.cap, data := (w0.data ++ u32bytes d.width.toNat) ++
          u32bytes d.height.toNat } := by
      unfold BinaryWriter.writeUInt32LE
      refine if_neg ?_ ▸ if_neg ?_ ▸ rfl
      · omega
      · simp only [List.length_append, u32bytes, List.length_cons,
          List.length_nil]
        push_cast
        omega
    unfold writeDimensions
    simp only [hstep1, hstep2]
    rw [ih _ (fun x hx => hdims x (by simp [hx])) (by simp [u32bytes]; omega)]
    rw [show dimsBytes (d :: rest) = u32bytes d.width.toNat ++
      u32bytes d.height.toNat ++ dimsBytes rest from rfl]
    simp [List.append_assoc]

/-- The writer capacity the encoder allocates for given inputs. -/
def encCap (m : H5AnimateMeta) (si : SpriteInfo) (w : Bytes) : Int :=
  16 + (getSpriteInfoSize si + (w.length : Int)) +
    ((stringifyMeta m).length : Int)

/-- The first 20 bytes the encoder emits (header and sprite count). -/
def encHeadBytes (m : H5AnimateMeta) (si : SpriteInfo) (w : Bytes) : Bytes :=
  FILE_SIGNATURE ++ u32bytes 1 ++
    u32bytes (getSpriteInfoSize si + (w.length : Int)).toNat ++
    u32bytes (stringifyMeta m).length ++ u32bytes si.count.toNat

/-- Forward run of the encoder: with all three inputs present, a count at
least the number of dimensions, and every written u32 value in range, the
encoder succeeds and produces the exact binary layout (with `allocUnsafe`
slack - present only when `count` overstates the dimension list - modelled
as zero bytes). -/
theorem encode_ok_of (m : H5AnimateMeta) (si : SpriteInfo) (w : Bytes)
    (hcnt0 : 0 ≤ si.count) (hdl : (si.dimensions.length : Int) ≤ si.count)
    (hdims : ∀ d ∈ si.dimensions, 0 ≤ d.width ∧ d.width < 4294967296 ∧
      0 ≤ d.height ∧ d.height < 4294967296)
    (hids : getSpriteInfoSize si + (w.length : Int) < 4294967296)
    (hmds : ((stringifyMeta m).length : Int) < 4294967296) :
    encodeH5Animate (some m) (some si) (some w) =
      .ok (encHeadBytes m si w ++
        dimsBytes si.dimensions ++ w ++ stringifyMeta m ++
        List.replicate (8 * (si.count.toNat - si.dimensions.length)) 0) := by
  have hsis : getSpriteInfoSize si = 4 + si.count * 8 := rfl
  have hids0 : 0 ≤ getSpriteInfoSize si + (w.length : Int) := by
    rw [hsis]; omega
  have hcnt32 : si.count < 536870912 := by rw [hsis] at hids; omega
  have hmk : BinaryWriter.mkWriter (encCap m si w) =
      .ok { cap := encCap m si w, data := [] } := by
    unfold BinaryWriter.mkWriter encCap
    rw [if_neg (by omega)]
  have hws : BinaryWriter.writeString
      { cap := encCap m si w, data := [] } FILE_SIGNATURE =
      { cap := encCap m si w, data := FILE_SIGNATURE } := by
    unfold BinaryWriter.writeString
    congr 1
    simp only [List.nil_append, List.length_nil]
    rw [show (FILE_SIGNATURE.map (· % 256)) = FILE_SIGNATURE from rfl]
    apply List.take_of_length_le
    unfold encCap
    simp [FILE_SIGNATURE]
    omega
  have hu1 : BinaryWriter.writeUInt32LE
      { cap := encCap m si w, data := FILE_SIGNATURE } CURRENT_VERSION =
      .ok { cap := encCap m si w, data := FILE_SIGNATURE ++ u32bytes 1 } := by
    unfold BinaryWriter.writeUInt32LE CURRENT_VERSION encCap
    rw [if_neg (by omega), if_neg (by simp [FILE_SIGNATURE]; omega)]
    rfl
  have hu2 : BinaryWriter.writeUInt32LE
      { cap := encCap m si w, data := FILE_SIGNATURE ++ u32bytes 1 }
      (getSpriteInfoSize si + (w.length : Int)) =
      .ok { cap := encCap m si w,
            data := FILE_SIGNATURE ++ u32bytes 1 ++
              u32bytes (getSpriteInfoSize si + (w.length : Int)).toNat } := by
    unfold BinaryWriter.writeUInt32LE encCap
    rw [if_neg (by omega), if_neg (by simp [FILE_SIGNATURE, u32bytes]; omega)]
  have hu3 : BinaryWriter.writeUInt32LE
      { cap := encCap m si w,
        data := FILE_SIGNATURE ++ u32bytes 1 ++
          u32bytes (getSpriteInfoSize si + (w.length : Int)).toNat }
      ((stringifyMeta m).length : Int) =
      .ok { cap := encCap m si w,
            data := FILE_SIGNATURE ++ u32bytes 1 ++
              u32bytes (getSpriteInfoSize si + (w.length : Int)).toNat ++
              u32bytes (stringifyMeta m).length } := by
    unfold BinaryWriter.writeUInt32LE encCap
    rw [if_neg (by omega), if_neg (by simp [FILE_SIGNATURE, u32bytes]; omega)]
    simp
  have hu4 : BinaryWriter.writeUInt32LE
      { cap := encCap m si w,
        data := FILE_SIGNATURE ++ u32bytes 1 ++
          u32bytes (getSpriteInfoSize si + (w.length : Int)).toNat ++
          u32bytes (stringifyMeta m).length } si.count =
      .ok { cap := encCap m si w, data := encHeadBytes m si w } := by
    unfold BinaryWriter.writeUInt32LE encCap encHeadBytes
    rw [if_neg (by omega), if_neg (by simp [FILE_SIGNATURE, u32bytes]; omega)]
  have hwd : writeDimensions
      { cap := encCap m si w, data := encHeadBytes m si w } si.dimensions =
      .ok { cap := encCap m si w,
            data := encHeadBytes m si w ++ dimsBytes si.dimensions } := by
    rw [writeDimensions_ok_of si.dimensions _ hdims (by
      unfold encCap encHeadBytes
      simp [FILE_SIGNATURE, u32bytes]
      rw [hsis] at hids ⊢
      omega)]
  have hhead20 : (encHeadBytes m si w).length = 20 := by
    unfold encHeadBytes
    simp [FILE_SIGNATURE, u32bytes]
  unfold encodeH5Animate
  rw [show validateEncodeInput (some m) (some si) (some w) = .ok () from rfl]
  unfold encCap at hmk hws hu1 hu2 hu3 hu4 hwd
  simp only [hmk, hws, hu1, hu2, hu3, hu4, hwd]
  unfold BinaryWriter.writeBuffer BinaryWriter.getBuffer
  simp only []
  rw [List.take_of_length_le (by
    simp only [List.length_append, hhead20, dimsBytes_length]
    rw [hsis] at hids ⊢
    omega)]
  rw [List.take_of_length_le (by
    simp only [List.length_append, hhead20, dimsBytes_length]
    rw [hsis] at hids ⊢
    omega)]
  rw [show (16 + (getSpriteInfoSize si + (w.length : Int)) +
      ((stringifyMeta m).length : Int) -
      (((encHeadBytes m si w ++ dimsBytes si.dimensions ++ w ++
        stringifyMeta m).length : Nat) : Int)).toNat =
      8 * (si.count.toNat - si.dimensions.length) from by
    simp only [List.length_append, hhead20, dimsBytes_length]
    rw [hsis]
    omega]

/-- C6 counterexample: `spriteInfo.count = -1` passes `validateEncodeInput`
(it is a number and `dimensions` is an array), but then
`writer.writeUInt32LE(totalImageDataSize)` receives -4 and Node raises an
untyped RangeError - the error escaping `encodeH5Animate` is not an
`H5AnimateError`. -/
theorem untyped_error_escape_counterexample :
    encodeH5Animate (some { ratio := 1, frame := [] })
      (some { count := -1, dimensions := [] }) (some []) =
      .error .rangeError ∧
    ¬ ∃ e : H5AnimateError,
      encodeH5Animate (some { ratio := 1, frame := [] })
        (some { count := -1, dimensions := [] }) (some []) =
        .error (.h5 e) := by
  constructor
  · rfl
  · rintro ⟨e, he⟩
    rw [show encodeH5Animate (some { ratio := 1, frame := [] })
      (some { count := -1, dimensions := [] }) (some []) =
      .error .rangeError from rfl] at he
    exact JsErr.noConfusion (Except.error.inj he)

/-- C6 amended: the error policy holds with two documented untyped leaks.
Encoding succeeds (in particular raises nothing untyped) whenever every u32
value it writes is in range and the dimension list is not longer than
`count`; a missing (null) input raises a typed ValidationError; and
decoding, on every buffer, either succeeds, raises a typed `H5AnimateError`,
or raises an untyped TypeError (from the dynamic metadata conversion) - it
never raises anything else, and on failure no partial result is produced
(the result is a single `Except` value). Out-of-range u32 values on the
encode side escape as untyped RangeError (see the counterexample). -/
theorem typed_error_policy_amended :
    (∀ (m : H5AnimateMeta) (si : SpriteInfo) (w : Bytes),
      0 ≤ si.count → (si.dimensions.length : Int) ≤ si.count →
      (∀ d ∈ si.dimensions, 0 ≤ d.width ∧ d.width < 4294967296 ∧
        0 ≤ d.height ∧ d.height < 4294967296) →
      getSpriteInfoSize si + (w.length : Int) < 4294967296 →
      ((stringifyMeta m).length : Int) < 4294967296 →
      ∃ buf, encodeH5Animate (some m) (some si) (some w) = .ok buf) ∧
    (∀ (om : Option H5AnimateMeta) (osi : Option SpriteInfo)
      (ow : Option Bytes), om.isNone ∨ osi.isNone ∨ ow.isNone →
      ∃ e : H5AnimateError, encodeH5Animate om osi ow = .error (.h5 e)) ∧
    (∀ buf : Bytes, (∃ d, decodeH5Animate buf = .ok d) ∨
      (∃ e : H5AnimateError, decodeH5Animate buf = .error (.h5 e)) ∨
      decodeH5Animate buf = .error .typeError) := by
  refine ⟨?_, ?_, ?_⟩
  · intro m si w h1 h2 h3 h4 h5
    exact ⟨_, encode_ok_of m si w h1 h2 h3 h4 h5⟩
  · intro om osi ow hnone
    cases om <;> cases osi <;> cases ow <;>
      first
        | exact ⟨_, rfl⟩
        | simp at hnone
  · intro buf
    rcases hh : parseHeader { buffer := buf } with e | ⟨hdr, p1⟩
    · exact Or.inr (Or.inl ⟨e, by unfold decodeH5Animate; simp only [hh]⟩)
    rcases hs : parseSpriteInfo p1 with e | ⟨si, p2⟩
    · exact Or.inr (Or.inl ⟨e, by unfold decodeH5Animate; simp only [hh, hs]⟩)
    rcases hw : p2.readBytes ((hdr.imageDataSize : Int) - getSpriteInfoSize si)
      with e | ⟨wd, p3⟩
    · exact Or.inr (Or.inl ⟨e, by
        unfold decodeH5Animate
        simp only [hh, hs, hw]⟩)
    rcases hmb : p3.readBytes ((hdr.metaDataSize : Nat) : Int) with e | ⟨mb, p4⟩
    · exact Or.inr (Or.inl ⟨e, by
        unfold decodeH5Animate
        simp only [hh, hs, hw, hmb]⟩)
    rcases hj : jsonParse mb with e | raw
    · exact Or.inr (Or.inl ⟨createInvalidMetadataError, by
        unfold decodeH5Animate
        simp only [hh, hs, hw, hmb, hj]⟩)
    rcases hc : convertArraysToObjects raw with e | meta
    · refine Or.inr (Or.inr ?_)
      unfold decodeH5Animate
      simp only [hh, hs, hw, hmb, hj, hc]
    · refine Or.inl ⟨{ meta := meta, spriteInfo := si, webpData := wd }, ?_⟩
      unfold decodeH5Animate
      simp only [hh, hs, hw, hmb, hj, hc]

/-- Witness for C6 amended: each conjunct instantiated concretely - a
successful well-ranged encode, a typed error for a missing `meta`, and the
decode trichotomy at the empty buffer. -/
theorem typed_error_policy_amended_witness :
    (∃ buf, encodeH5Animate (some { ratio := 1, frame := [] })
      (some { count := 0, dimensions := [] }) (some []) = .ok buf) ∧
    (∃ e : H5AnimateError, encodeH5Animate none
      (some { count := 0, dimensions := [] }) (some []) = .error (.h5 e)) ∧
    ((∃ d, decodeH5Animate [] = .ok d) ∨
      (∃ e : H5AnimateError, decodeH5Animate [] = .error (.h5 e)) ∨
      decodeH5Animate [] = .error .typeError) :=
  ⟨typed_error_policy_amended.1 { ratio := 1, frame := [] }
      { count := 0, dimensions := [] } [] (by norm_num) (by norm_num)
      (by simp) (by norm_num [getSpriteInfoSize]) (by decide),
    typed_error_policy_amended.2.1 none (some { count := 0, dimensions := [] })
      (some []) (by simp),
    typed_error_policy_amended.2.2 []⟩

/-! ## C1: JSON round-trip machinery

The encoder serializes the metadata with `JSON.stringify(meta, metaReplacer)`
and the decoder re-reads it with `JSON.parse`; the round-trip claim needs the
parser to invert the printer on the printer image. -/

/-- The next input byte (if any) is not a digit, so a greedy number parse
stops exactly at the printed digits. -/
def HeadNotDigit (rest : Bytes) : Prop :=
  match rest with
  | [] => True
  | c :: _ => isDigitCode c = false

/-- The text is nonempty and does not start with `]`, so the empty-array
special case of the parser does not fire on it. -/
def StartsElem (txt : Bytes) : Prop :=
  match txt with
  | [] => False
  | c :: _ => c ≠ 93

theorem StartsElem.one_le {t : Bytes} (h : StartsElem t) : 1 ≤ t.length := by
  cases t with
  | nil => exact h.elim
  | cons a l => simp

theorem escapeStr_nil : escapeStr [] = [] := rfl

theorem escapeStr_cons (c : Nat) (cs : Bytes) :
    escapeStr (c :: cs) =
      (if c = 34 ∨ c = 92 then [92, c] else [c]) ++ escapeStr cs := by
  simp [escapeStr]

theorem parseStringBody_cons (c : Nat) (rest : Bytes) :
    parseStringBody (c :: rest) =
      if c = 34 then .ok ([], rest)
      else if c = 92 then
        match rest with
        | [] => .error ()
        | c2 :: rest2 =>
          match parseStringBody rest2 with
          | .error e => .error e
          | .ok (s, r) => .ok (c2 :: s, r)
      else
        match parseStringBody rest with
        | .error e => .error e
        | .ok (s, r) => .ok (c :: s, r) := by
  rw [parseStringBody.eq_def]
  rfl

/-- The string-body parser inverts the escaper up to the closing quote. -/
theorem parseStringBody_escape (s rest : Bytes) :
    parseStringBody (escapeStr s ++ 34 :: rest) = .ok (s, rest) := by
  induction s with
  | nil =>
    rw [escapeStr_nil]
    simp only [List.nil_append]
    rw [parseStringBody_cons]
    norm_num
  | cons c cs ih =>
    rw [escapeStr_cons]
    by_cases hc : c = 34 ∨ c = 92
    · rw [if_pos hc]
      simp only [List.cons_append, List.nil_append, List.append_assoc]
      rw [parseStringBody_cons]
      simp only [ih]
      norm_num
    · rw [if_neg hc]
      push_neg at hc
      obtain ⟨h34, h92⟩ := hc
      simp only [List.cons_append, List.nil_append]
      rw [parseStringBody_cons, if_neg h34, if_neg h92]
      simp only [ih]

theorem digitsVal_snoc (a : Bytes) (d : Nat) :
    digitsVal (a ++ [d]) = digitsVal a * 10 + (d - 48) := by
  simp [digitsVal, List.foldl_append]

theorem natDigitsAux_val :
    ∀ fuel n, n ≤ fuel → digitsVal (natDigitsAux fuel n) = n := by
  intro fuel
  induction fuel with
  | zero =>
    intro n hn
    have : n = 0 := by omega
    subst this
    rfl
  | succ f ih =>
    intro n hn
    cases n with
    | zero => rfl
    | succ k =>
      rw [natDigitsAux, digitsVal_snoc, ih _ (by
        have := Nat.div_lt_self (show 0 < k + 1 by omega) (show 1 < 10 by omega)
        omega)]
      · omega
      · exact Nat.succ_ne_zero k

theorem natDigitsAux_digits :
    ∀ fuel n c, c ∈ natDigitsAux fuel n → isDigitCode c = true := by
  intro fuel
  induction fuel with
  | zero => intro n c h; simp [natDigitsAux] at h
  | succ f ih =>
    intro n c h
    cases n with
    | zero => simp [natDigitsAux] at h
    | succ k =>
      rw [natDigitsAux] at h
      case x_2 => exact Nat.succ_ne_zero k
      rcases List.mem_append.mp h with h1 | h2
      · exact ih _ _ h1
      · simp only [List.mem_singleton] at h2
        subst h2
        have := Nat.mod_lt (k + 1) (show 0 < 10 by omega)
        simp only [isDigitCode, decide_eq_true_eq]
        omega

theorem natDigitsAux_ne_nil (fuel n : Nat) (h0 : n ≠ 0) (hf : n ≤ fuel) :
    natDigitsAux fuel n ≠ [] := by
  cases fuel with
  | zero => omega
  | succ f =>
    cases n with
    | zero => omega
    | succ k =>
      rw [natDigitsAux]
      · simp
      · exact Nat.succ_ne_zero k

theorem natDigits_val (n : Nat) : digitsVal (natDigits n) = n := by
  unfold natDigits
  by_cases h : n = 0
  · subst h; rfl
  · rw [if_neg h]; exact natDigitsAux_val n n le_rfl

theorem natDigits_digits (n : Nat) :
    ∀ c ∈ natDigits n, isDigitCode c = true := by
  intro c h
  unfold natDigits at h
  by_cases h0 : n = 0
  · rw [if_pos h0] at h
    simp only [List.mem_singleton] at h
    subst h
    rfl
  · rw [if_neg h0] at h
    exact natDigitsAux_digits n n c h

theorem natDigits_ne_nil (n : Nat) : natDigits n ≠ [] := by
  unfold natDigits
  by_cases h0 : n = 0
  · simp [h0]
  · rw [if_neg h0]; exact natDigitsAux_ne_nil n n h0 le_rfl

theorem takeWhile_digits (ds rest : Bytes)
    (hds : ∀ c ∈ ds, isDigitCode c = true) (hrest : HeadNotDigit rest) :
    (ds ++ rest).takeWhile isDigitCode = ds ∧
      (ds ++ rest).dropWhile isDigitCode = rest := by
  induction ds with
  | nil =>
    simp only [List.nil_append]
    cases rest with
    | nil => simp
    | cons c r =>
      have hc : isDigitCode c = false := hrest
      rw [List.takeWhile_cons, List.dropWhile_cons, hc]
      simp
  | cons d ds ih =>
    have hd : isDigitCode d = true := hds d (by simp)
    obtain ⟨h1, h2⟩ := ih (fun c hc => hds c (by simp [hc]))
    rw [List.cons_append, List.takeWhile_cons, List.dropWhile_cons, hd]
    simp [h1, h2]

theorem parseDigits_append (ds rest : Bytes)
    (hds : ∀ c ∈ ds, isDigitCode c = true) (hrest : HeadNotDigit rest) :
    parseDigits (ds ++ rest) = (ds, rest) := by
  obtain ⟨h1, h2⟩ := takeWhile_digits ds rest hds hrest
  unfold parseDigits
  rw [h1, h2]

theorem parseValue_cons (fuel : Nat) (c : Nat) (rest : Bytes) :
    parseValue (fuel + 1) (c :: rest) =
      (if c = 110 then
        match rest with
        | 117 :: 108 :: 108 :: r => .ok (.null, r)
        | _ => .error ()
      else if c = 116 then
        match rest with
        | 114 :: 117 :: 101 :: r => .ok (.bool true, r)
        | _ => .error ()
      else if c = 102 then
        match rest with
        | 97 :: 108 :: 115 :: 101 :: r => .ok (.bool false, r)
        | _ => .error ()
      else if c = 34 then
        match parseStringBody rest with
        | .error e => .error e
        | .ok (s, r) => .ok (.str s, r)
      else if c = 91 then
        match rest with
        | [] => .error ()
        | c2 :: r2 =>
          if c2 = 93 then .ok (.arr [], r2)
          else
            match parseElems fuel (c2 :: r2) with
            | .error e => .error e
            | .ok (vs, r) => .ok (.arr vs, r)
      else if c = 123 then
        match rest with
        | [] => .error ()
        | c2 :: r2 =>
          if c2 = 125 then .ok (.obj [], r2)
          else
            match parseFields fuel (c2 :: r2) with
            | .error e => .error e
            | .ok (fs, r) => .ok (.obj fs, r)
      else if c = 45 then
        match parseDigits rest with
        | ([], _) => .error ()
        | (ds, r) => .ok (.num (-(digitsVal ds : Int)), r)
      else if isDigitCode c then
        match parseDigits (c :: rest) with
        | (ds, r) => .ok (.num (digitsVal ds : Int), r)
      else .error ()) := rfl

/-- The parser/printer round-trip invariant: with enough fuel, parsing the
printed text followed by any non-digit-headed continuation yields exactly
the value and the continuation. -/
def RT (txt : Bytes) (j : Json) : Prop :=
  ∀ fuel rest, txt.length ≤ fuel → HeadNotDigit rest →
    parseValue fuel (txt ++ rest) = .ok (j, rest)

theorem RT_int (n : Int) : RT (printInt n) (.num n) := by
  intro fuel rest hf hr
  rw [printInt] at hf ⊢
  by_cases hneg : n < 0
  · rw [if_pos hneg] at hf ⊢
    obtain ⟨d, ds, hcons⟩ :=
      List.exists_cons_of_ne_nil (natDigits_ne_nil n.natAbs)
    cases fuel with
    | zero => exact absurd hf (by simp)
    | succ f =>
      rw [List.cons_append, parseValue_cons]
      norm_num
      have hpd : parseDigits (natDigits n.natAbs ++ rest) =
          (d :: ds, rest) := by
        rw [parseDigits_append _ _ (natDigits_digits _) hr, hcons]
      simp only [hpd]
      have hv : digitsVal (d :: ds) = n.natAbs := by
        rw [← hcons]; exact natDigits_val _
      rw [hv]
      have hn2 : -((n.natAbs : Nat) : Int) = n := by omega
      rw [hn2]
  · rw [if_neg hneg] at hf ⊢
    obtain ⟨d, ds, hcons⟩ :=
      List.exists_cons_of_ne_nil (natDigits_ne_nil n.toNat)
    have hdig : isDigitCode d = true :=
      natDigits_digits _ d (by rw [hcons]; simp)
    have hd' : 48 ≤ d ∧ d ≤ 57 := by simpa [isDigitCode] using hdig
    rw [hcons] at hf ⊢
    cases fuel with
    | zero => exact absurd hf (by simp)
    | succ f =>
      rw [List.cons_append, parseValue_cons]
      rw [if_neg (by omega), if_neg (by omega), if_neg (by omega),
        if_neg (by omega), if_neg (by omega), if_neg (by omega),
        if_neg (by omega), if_pos hdig]
      have hpd : parseDigits (d :: (ds ++ rest)) = (d :: ds, rest) := by
        rw [show d :: (ds ++ rest) = (d :: ds) ++ rest from rfl]
        refine parseDigits_append _ _ ?_ hr
        intro c hc
        exact natDigits_digits n.toNat c (by rw [hcons]; exact hc)
      simp only [hpd]
      have hv : digitsVal (d :: ds) = n.toNat := by
        rw [← hcons]; exact natDigits_val _
      rw [hv]
      have hn2 : ((n.toNat : Nat) : Int) = n := by omega
      rw [hn2]

theorem RT_str (s : Bytes) : RT (printStr s) (.str s) := by
  intro fuel rest hf hr
  rw [printStr] at hf ⊢
  cases fuel with
  | zero => exact absurd hf (by simp)
  | succ f =>
    simp only [List.cons_append, List.append_assoc]
    rw [parseValue_cons]
    norm_num
    simp only [parseStringBody_escape]

theorem headNotDigit_cons (c : Nat) (r : Bytes)
    (h : isDigitCode c = false) : HeadNotDigit (c :: r) := h

theorem startsElem_printInt (n : Int) : StartsElem (printInt n) := by
  rw [printInt]
  by_cases hneg : n < 0
  · rw [if_pos hneg]
    simp [StartsElem]
  · rw [if_neg hneg]
    obtain ⟨d, ds, hcons⟩ :=
      List.exists_cons_of_ne_nil (natDigits_ne_nil n.toNat)
    have hd' : 48 ≤ d ∧ d ≤ 57 := by
      simpa [isDigitCode] using natDigits_digits n.toNat d (by rw [hcons]; simp)
    rw [hcons]
    simp only [StartsElem]
    omega

theorem startsElem_printStr (s : Bytes) : StartsElem (printStr s) := by
  rw [printStr]; simp [StartsElem]

theorem startsElem_arrPrint (es : List Bytes) : StartsElem (arrPrint es) := by
  rw [arrPrint]; simp [StartsElem]

theorem startsElem_objPrint (fs : List (Bytes × Bytes)) :
    StartsElem (objPrint fs) := by
  rw [objPrint]; simp [StartsElem]

theorem parseElems_succ (fuel : Nat) (input : Bytes) :
    parseElems (fuel + 1) input =
      (match parseValue fuel input with
      | .error e => .error e
      | .ok (v, r) =>
        match r with
        | 44 :: r2 =>
            match parseElems fuel r2 with
            | .error e => .error e
            | .ok (vs, r3) => .ok (v :: vs, r3)
        | 93 :: r2 => .ok ([v], r2)
        | _ => .error ()) := rfl

theorem parseFields_succ (fuel : Nat) (rest : Bytes) :
    parseFields (fuel + 1) (34 :: rest) =
      (match parseStringBody rest with
      | .error e => .error e
      | .ok (k, r1) =>
        match r1 with
        | 58 :: r2 =>
            match parseValue fuel r2 with
            | .error e => .error e
            | .ok (v, r3) =>
              match r3 with
              | 44 :: r4 =>
                  match parseFields fuel r4 with
                  | .error e => .error e
                  | .ok (fs, r5) => .ok ((k, v) :: fs, r5)
              | 125 :: r4 => .ok ([(k, v)], r4)
              | _ => .error ()
        | _ => .error ()) := rfl

/-- Parsing the comma-joined printed elements of a nonempty array, up to and
including the closing bracket. -/
theorem parseElems_chain :
    ∀ (items : List (Bytes × Json)),
      items ≠ [] →
      (∀ it ∈ items, RT it.1 it.2 ∧ StartsElem it.1) →
      ∀ fuel rest,
        (joinComma (items.map Prod.fst)).length + 1 ≤ fuel →
        HeadNotDigit rest →
        parseElems fuel ((joinComma (items.map Prod.fst) ++ [93]) ++ rest) =
          .ok (items.map Prod.snd, rest) := by
  intro items
  induction items with
  | nil => intro h; exact absurd rfl h
  | cons it more ih =>
    intro _ hall fuel rest hf hr
    cases more with
    | nil =>
      simp only [List.map_cons, List.map_nil, joinComma] at hf ⊢
      cases fuel with
      | zero => omega
      | succ f =>
        rw [parseElems_succ]
        have h1 : parseValue f (it.1 ++ 93 :: rest) =
            .ok (it.2, 93 :: rest) :=
          (hall it (by simp)).1 f (93 :: rest) (by omega)
            (headNotDigit_cons _ _ rfl)
        rw [show (it.1 ++ [93]) ++ rest = it.1 ++ 93 :: rest from by simp]
        simp only [h1]
    | cons it2 more2 =>
      simp only [List.map_cons, joinComma] at hf ⊢
      have hlen1 : 1 ≤ it.1.length := (hall it (by simp)).2.one_le
      cases fuel with
      | zero =>
        simp only [List.length_append, List.length_cons] at hf
        omega
      | succ f =>
        rw [parseElems_succ]
        have h1 : parseValue f
            (it.1 ++ 44 :: ((joinComma (it2.1 :: List.map Prod.fst more2) ++
              [93]) ++ rest)) =
            .ok (it.2, 44 :: ((joinComma (it2.1 :: List.map Prod.fst more2) ++
              [93]) ++ rest)) :=
          (hall it (by simp)).1 f _ (by
              simp only [List.length_append, List.length_cons] at hf
              omega)
            (headNotDigit_cons _ _ rfl)
        rw [show ((it.1 ++ 44 :: joinComma (it2.1 :: List.map Prod.fst more2))
            ++ [93]) ++ rest =
            it.1 ++ 44 :: ((joinComma (it2.1 :: List.map Prod.fst more2) ++
              [93]) ++ rest) from by simp]
        simp only [h1]
        have hih := ih (by simp) (fun x hx => hall x (by simp [hx])) f rest
          (by
            simp only [List.map_cons]
            simp only [List.length_append, List.length_cons] at hf ⊢
            omega) hr
        simp only [List.map_cons] at hih
        rw [hih]

/-- Round-trip for a printed nonempty-or-empty JSON array. -/
theorem RT_arr (items : List (Bytes × Json))
    (hall : ∀ it ∈ items, RT it.1 it.2 ∧ StartsElem it.1) :
    RT (arrPrint (items.map Prod.fst)) (.arr (items.map Prod.snd)) := by
  intro fuel rest hf hr
  rw [arrPrint] at hf ⊢
  cases items with
  | nil =>
    simp only [List.map_nil, joinComma] at hf ⊢
    cases fuel with
    | zero => exact absurd hf (by simp)
    | succ f =>
      simp only [List.cons_append, List.nil_append]
      rw [parseValue_cons]
      norm_num
  | cons it more =>
    have hs1 : StartsElem it.1 := (hall it (by simp)).2
    obtain ⟨c, cs, hcc⟩ := List.exists_cons_of_ne_nil
      (show it.1 ≠ [] from List.length_pos.mp (by
        have := hs1.one_le; omega))
    have hc93 : c ≠ 93 := by rw [hcc] at hs1; exact hs1
    obtain ⟨t, ht⟩ : ∃ t, joinComma ((it :: more).map Prod.fst) =
        it.1 ++ t := by
      cases more with
      | nil => exact ⟨[], by simp [joinComma]⟩
      | cons it2 more2 =>
          exact ⟨44 :: joinComma ((it2 :: more2).map Prod.fst), rfl⟩
    cases fuel with
    | zero => exact absurd hf (by simp)
    | succ f =>
      rw [ht, hcc]
      simp only [List.cons_append, List.append_assoc]
      rw [parseValue_cons]
      norm_num
      rw [if_neg hc93]
      rw [show c :: (cs ++ (t ++ (93 :: rest))) =
          (joinComma ((it :: more).map Prod.fst) ++ [93]) ++ rest from by
        rw [ht, hcc]; simp]
      rw [parseElems_chain (it :: more) (by simp) hall f rest (by
        rw [ht, hcc] at hf
        rw [ht, hcc]
        simp only [List.length_cons, List.length_append] at hf ⊢
        omega) hr]
      simp

/-- Parsing the comma-joined printed fields of a nonempty object, up to and
including the closing brace. -/
theorem parseFields_chain :
    ∀ (items : List (Bytes × Bytes × Json)),
      items ≠ [] →
      (∀ x ∈ items, RT x.2.1 x.2.2) →
      ∀ fuel rest,
        (joinComma (items.map fun x =>
          printStr x.1 ++ 58 :: x.2.1)).length + 1 ≤ fuel →
        HeadNotDigit rest →
        parseFields fuel
          ((joinComma (items.map fun x => printStr x.1 ++ 58 :: x.2.1) ++
            [125]) ++ rest) =
          .ok (items.map (fun x => (x.1, x.2.2)), rest) := by
  intro items
  induction items with
  | nil => intro h; exact absurd rfl h
  | cons x more ih =>
    intro _ hall fuel rest hf hr
    cases more with
    | nil =>
      simp only [List.map_cons, List.map_nil, joinComma] at hf ⊢
      cases fuel with
      | zero =>
        simp only [printStr, List.length_append, List.length_cons] at hf
        omega
      | succ f =>
        rw [show ((printStr x.1 ++ 58 :: x.2.1) ++ [125]) ++ rest =
            34 :: (escapeStr x.1 ++ 34 :: (58 :: (x.2.1 ++ 125 :: rest)))
          from by simp [printStr]]
        rw [parseFields_succ]
        simp only [parseStringBody_escape]
        have h1 : parseValue f (x.2.1 ++ 125 :: rest) =
            .ok (x.2.2, 125 :: rest) :=
          hall x (by simp) f _ (by
              simp only [printStr, List.length_append, List.length_cons] at hf
              omega)
            (headNotDigit_cons _ _ rfl)
        simp only [h1]
    | cons x2 more2 =>
      simp only [List.map_cons, joinComma] at hf ⊢
      cases fuel with
      | zero =>
        simp only [printStr, List.length_append, List.length_cons] at hf
        omega
      | succ f =>
        rw [show (((printStr x.1 ++ 58 :: x.2.1) ++
            44 :: joinComma ((printStr x2.1 ++ 58 :: x2.2.1) ::
              List.map (fun y => printStr y.1 ++ 58 :: y.2.1) more2)) ++
            [125]) ++ rest =
            34 :: (escapeStr x.1 ++ 34 :: (58 :: (x.2.1 ++
              44 :: ((joinComma ((printStr x2.1 ++ 58 :: x2.2.1) ::
                List.map (fun y => printStr y.1 ++ 58 :: y.2.1) more2) ++
                [125]) ++ rest))))
          from by simp [printStr]]
        rw [parseFields_succ]
        simp only [parseStringBody_escape]
        have h1 : parseValue f (x.2.1 ++
            44 :: ((joinComma ((printStr x2.1 ++ 58 :: x2.2.1) ::
              List.map (fun y => printStr y.1 ++ 58 :: y.2.1) more2) ++
              [125]) ++ rest)) =
            .ok (x.2.2, 44 :: ((joinComma ((printStr x2.1 ++ 58 :: x2.2.1) ::
              List.map (fun y => printStr y.1 ++ 58 :: y.2.1) more2) ++
              [125]) ++ rest)) :=
          hall x (by simp) f _ (by
              simp only [printStr, List.length_append, List.length_cons] at hf
              omega)
            (headNotDigit_cons _ _ rfl)
        simp only [h1]
        have hih := ih (by simp) (fun y hy => hall y (by simp [hy])) f rest
          (by
            simp only [List.map_cons]
            simp only [printStr, List.length_append, List.length_cons] at hf ⊢
            omega) hr
        simp only [List.map_cons] at hih
        rw [hih]

/-- Round-trip for a printed JSON object. -/
theorem RT_obj (items : List (Bytes × Bytes × Json))
    (hall : ∀ x ∈ items, RT x.2.1 x.2.2) :
    RT (objPrint (items.map fun x => (x.1, x.2.1)))
       (.obj (items.map fun x => (x.1, x.2.2))) := by
  intro fuel rest hf hr
  rw [objPrint] at hf ⊢
  simp only [List.map_map, Function.comp_def] at hf ⊢
  cases items with
  | nil =>
    simp only [List.map_nil, joinComma] at hf ⊢
    cases fuel with
    | zero => exact absurd hf (by simp)
    | succ f =>
      simp only [List.cons_append, List.nil_append]
      rw [parseValue_cons]
      norm_num
  | cons x more =>
    obtain ⟨t, ht⟩ : ∃ t, joinComma ((x :: more).map fun y =>
        printStr y.1 ++ 58 :: y.2.1) =
        (printStr x.1 ++ 58 :: x.2.1) ++ t := by
      cases more with
      | nil => exact ⟨[], by simp [joinComma]⟩
      | cons x2 more2 => exact ⟨_, rfl⟩
    simp only [List.map_cons] at ht
    simp only [List.map_cons] at hf ⊢
    cases fuel with
    | zero => exact absurd hf (by simp)
    | succ f =>
      rw [ht]
      simp only [printStr, List.cons_append, List.nil_append,
        List.append_assoc]
      rw [parseValue_cons]
      norm_num
      rw [show (34 : Nat) :: (escapeStr x.1 ++ 34 :: 58 ::
          (x.2.1 ++ (t ++ (125 :: rest)))) =
          (joinComma ((x :: more).map fun y =>
            printStr y.1 ++ 58 :: y.2.1) ++ [125]) ++ rest from by
        simp only [List.map_cons]
        rw [ht]
        simp [printStr]]
      rw [parseFields_chain (x :: more) (by simp) hall f rest (by
        simp only [List.map_cons]
        rw [ht] at hf ⊢
        simp only [printStr, List.length_cons, List.length_append] at hf ⊢
        omega) hr]
      simp

/-- The (key, printed value, parsed value) triples of a serialized sound. -/
def soundFields (s : SoundMeta) : List (Bytes × Bytes × Json) :=
  [(keyName, printStr s.name, Json.str s.name)] ++
    (match s.volume with
      | none => []
      | some v => [(keyVolume, printInt v, Json.num v)]) ++
    (match s.pitch with
      | none => []
      | some v => [(keyPitch, printInt v, Json.num v)])

theorem soundFields_print (s : SoundMeta) :
    (soundFields s).map (fun x => (x.1, x.2.1)) = soundPrintPairs s := by
  rcases s with ⟨n, v, p⟩
  cases v <;> cases p <;> rfl

theorem soundFields_json (s : SoundMeta) :
    Json.obj ((soundFields s).map fun x => (x.1, x.2.2)) = soundJson s := by
  rcases s with ⟨n, v, p⟩
  cases v <;> cases p <;> rfl

theorem RT_sound (s : SoundMeta) : RT (printSound s) (soundJson s) := by
  rw [printSound, ← soundFields_print, ← soundFields_json]
  refine RT_obj (soundFields s) ?_
  intro x hx
  rcases s with ⟨n, v, p⟩
  unfold soundFields at hx
  cases v <;> cases p <;>
    simp only [List.mem_cons, List.not_mem_nil, or_false, List.nil_append,
      List.append_nil, List.cons_append, List.singleton_append] at hx
  · subst hx; exact RT_str n
  · rcases hx with rfl | rfl
    · exact RT_str n
    · exact RT_int _
  · rcases hx with rfl | rfl
    · exact RT_str n
    · exact RT_int _
  · rcases hx with rfl | rfl | rfl
    · exact RT_str n
    · exact RT_int _
    · exact RT_int _

theorem RT_tuple (o : H5AnimateObject) : RT (printTuple o) (tupleJson o) := by
  rw [printTuple, tupleJson]
  have h := RT_arr ((convertObjectToArray o).map
      (fun n => (printInt n, Json.num n))) (by
    intro it hit
    simp only [List.mem_map] at hit
    obtain ⟨n, _, rfl⟩ := hit
    exact ⟨RT_int n, startsElem_printInt n⟩)
  simp only [List.map_map, Function.comp_def] at h
  exact h

theorem RT_soundArr (ss : List SoundMeta) :
    RT (arrPrint (ss.map printSound)) (.arr (ss.map soundJson)) := by
  have h := RT_arr (ss.map (fun s => (printSound s, soundJson s))) (by
    intro it hit
    simp only [List.mem_map] at hit
    obtain ⟨s, _, rfl⟩ := hit
    refine ⟨RT_sound s, ?_⟩
    rw [printSound]
    exact startsElem_objPrint _)
  simp only [List.map_map, Function.comp_def] at h
  exact h

theorem RT_tupleArr (os : List H5AnimateObject) :
    RT (arrPrint (os.map printTuple)) (.arr (os.map tupleJson)) := by
  have h := RT_arr (os.map (fun o => (printTuple o, tupleJson o))) (by
    intro it hit
    simp only [List.mem_map] at hit
    obtain ⟨o, _, rfl⟩ := hit
    refine ⟨RT_tuple o, ?_⟩
    rw [printTuple]
    exact startsElem_arrPrint _)
  simp only [List.map_map, Function.comp_def] at h
  exact h

/-- The (key, printed value, parsed value) triples of a serialized frame. -/
def frameFields (f : H5AnimateFrame) : List (Bytes × Bytes × Json) :=
  (match f.sound with
    | none => []
    | some ss => [(keySound, arrPrint (ss.map printSound),
        Json.arr (ss.map soundJson))]) ++
  (match f.objects with
    | none => []
    | some os => [(keyObjects, arrPrint (os.map printTuple),
        Json.arr (os.map tupleJson))])

theorem frameFields_print (f : H5AnimateFrame) :
    (frameFields f).map (fun x => (x.1, x.2.1)) = framePrintPairs f := by
  rcases f with ⟨s, o⟩
  cases s <;> cases o <;> rfl

theorem frameFields_json (f : H5AnimateFrame) :
    Json.obj ((frameFields f).map fun x => (x.1, x.2.2)) = frameRawJson f := by
  rcases f with ⟨s, o⟩
  cases s <;> cases o <;> rfl

theorem RT_frame (f : H5AnimateFrame) : RT (printFrame f) (frameRawJson f) := by
  rw [printFrame, ← frameFields_print, ← frameFields_json]
  refine RT_obj (frameFields f) ?_
  intro x hx
  rcases f with ⟨s, o⟩
  unfold frameFields at hx
  cases s <;> cases o <;>
    simp only [List.mem_cons, List.not_mem_nil, or_false, List.nil_append,
      List.append_nil, List.cons_append, List.singleton_append] at hx
  · subst hx; exact RT_tupleArr _
  · subst hx; exact RT_soundArr _
  · rcases hx with rfl | rfl
    · exact RT_soundArr _
    · exact RT_tupleArr _

theorem RT_frameArr (fs : List H5AnimateFrame) :
    RT (arrPrint (fs.map printFrame)) (.arr (fs.map frameRawJson)) := by
  have h := RT_arr (fs.map (fun f => (printFrame f, frameRawJson f))) (by
    intro it hit
    simp only [List.mem_map] at hit
    obtain ⟨f, _, rfl⟩ := hit
    refine ⟨RT_frame f, ?_⟩
    rw [printFrame]
    exact startsElem_objPrint _)
  simp only [List.map_map, Function.comp_def] at h
  exact h

/-- The (key, printed value, parsed value) triples of the serialized
metadata. -/
def metaFields (m : H5AnimateMeta) : List (Bytes × Bytes × Json) :=
  [(keyRatio, printInt m.ratio, Json.num m.ratio),
   (keyFrame, arrPrint (m.frame.map printFrame),
     Json.arr (m.frame.map frameRawJson))]

theorem RT_meta (m : H5AnimateMeta) : RT (stringifyMeta m) (rawMetaJson m) := by
  have h := RT_obj (metaFields m) (by
    intro x hx
    simp only [metaFields, List.mem_cons, List.not_mem_nil, or_false] at hx
    rcases hx with rfl | rfl
    · exact RT_int m.ratio
    · exact RT_frameArr m.frame)
  have h1 : (metaFields m).map (fun x => (x.1, x.2.1)) =
      [(keyRatio, printInt m.ratio),
       (keyFrame, arrPrint (m.frame.map printFrame))] := rfl
  have h2 : Json.obj ((metaFields m).map fun x => (x.1, x.2.2)) =
      rawMetaJson m := rfl
  rw [stringifyMeta, ← h1, ← h2]
  exact h

/-- `JSON.parse` inverts `JSON.stringify(meta, metaReplacer)` on the printed
metadata text. -/
theorem jsonParse_stringifyMeta (m : H5AnimateMeta) :
    jsonParse (stringifyMeta m) = .ok (rawMetaJson m) := by
  unfold jsonParse
  have h := RT_meta m ((stringifyMeta m).length + 1) [] (by omega) trivial
  rw [List.append_nil] at h
  rw [h]

/-- The seven indexed reads of `convertArrayToObject` on a parsed 7-tuple
rebuild exactly the normalized object (defaults filled by `?? 0`). -/
theorem convertArrayToObject_tuple (o : H5AnimateObject) :
    convertArrayToObject (tupleJson o) = .ok (objectJsonNormalized o) := rfl

theorem mapExcept_tuple (os : List H5AnimateObject) :
    mapExcept convertArrayToObject (os.map tupleJson) =
      .ok (os.map objectJsonNormalized) := by
  induction os with
  | nil => rfl
  | cons o rest ih =>
    simp only [List.map_cons, mapExcept, convertArrayToObject_tuple, ih]

/-- Per-frame dynamic conversion on the parsed shape of a serialized frame. -/
theorem convertFrameDyn_raw (f : H5AnimateFrame) :
    convertFrameDyn (frameRawJson f) = .ok (frameJsonNormalized f) := by
  rcases f with ⟨s, o⟩
  cases s with
  | none =>
    cases o with
    | none => rfl
    | some os =>
      have h1 : getField
          (frameRawJson { sound := none, objects := some os }) keySound =
          .ok .undef := rfl
      have h2 : getField
          (frameRawJson { sound := none, objects := some os }) keyObjects =
          .ok (.arr (os.map tupleJson)) := rfl
      unfold convertFrameDyn
      simp only [h1, h2, mapExcept_tuple]
      rfl
  | some ss =>
    cases o with
    | none => rfl
    | some os =>
      have h1 : getField
          (frameRawJson { sound := some ss, objects := some os }) keySound =
          .ok (.arr (ss.map soundJson)) := rfl
      have h2 : getField
          (frameRawJson { sound := some ss, objects := some os }) keyObjects =
          .ok (.arr (os.map tupleJson)) := rfl
      unfold convertFrameDyn
      simp only [h1, h2, mapExcept_tuple]
      rfl

theorem mapExcept_frames (fs : List H5AnimateFrame) :
    mapExcept convertFrameDyn (fs.map frameRawJson) =
      .ok (fs.map frameJsonNormalized) := by
  induction fs with
  | nil => rfl
  | cons f rest ih =>
    simp only [List.map_cons, mapExcept, convertFrameDyn_raw, ih]

/-- `convertArraysToObjects` on the value `JSON.parse` yields for the
serialized metadata rebuilds exactly the normalized metadata object. -/
theorem convertArraysToObjects_raw (m : H5AnimateMeta) :
    convertArraysToObjects (rawMetaJson m) = .ok (metaJsonNormalized m) := by
  have h1 : getField (rawMetaJson m) keyFrame =
      .ok (.arr (m.frame.map frameRawJson)) := rfl
  have h2 : getField (rawMetaJson m) keyRatio = .ok (.num m.ratio) := rfl
  unfold convertArraysToObjects
  simp only [h1, h2]
  rw [if_neg (by simp [jsTruthy])]
  simp only [mapExcept_frames]
  rfl

theorem byteAt_append (pre post : Bytes) (i : Nat) (hi : i < post.length) :
    byteAt (pre ++ post) ((pre.length : Int) + i) = post.getD i 0 % 256 := by
  unfold byteAt
  rw [if_pos (by omega)]
  have h1 : ((pre.length : Int) + i).toNat = pre.length + i := by omega
  rw [h1, List.getD_append_right]
  · rw [show pre.length + i - pre.length = i from by omega]
  · omega

/-- A u32 read over a buffer laid out as `pre ++ u32bytes v ++ post`, with
the cursor at the start of the stored value. -/
theorem readUInt32LE_at (pre post : Bytes) (v : Nat) (hv : v < 4294967296) :
    BinaryParser.readUInt32LE
      { buffer := pre ++ (u32bytes v ++ post), offset := (pre.length : Int) } =
      .ok (v, { buffer := pre ++ (u32bytes v ++ post),
                offset := (pre.length : Int) + 4 }) := by
  have hb : ∀ i : Nat, i < 4 →
      byteAt (pre ++ (u32bytes v ++ post)) ((pre.length : Int) + i) =
        (u32bytes v).getD i 0 % 256 := by
    intro i hi
    rw [byteAt_append pre (u32bytes v ++ post) i (by simp [u32bytes]; omega)]
    congr 1
    rw [List.getD_append]
    simp [u32bytes]
    omega
  unfold BinaryParser.readUInt32LE BinaryParser.checkBounds
  simp only []
  rw [if_neg (by simp [u32bytes]; omega)]
  have h0 := hb 0 (by omega)
  have h1 := hb 1 (by omega)
  have h2 := hb 2 (by omega)
  have h3 := hb 3 (by omega)
  norm_num at h0 h1 h2 h3
  rw [h0, h1, h2, h3]
  simp only [Except.ok.injEq, Prod.mk.injEq]
  refine ⟨?_, trivial⟩
  simp only [u32bytes]
  norm_num [List.getD]
  omega

/-- A slice read over a buffer laid out as `pre ++ mid ++ post`, with the
cursor at the start of `mid` and the slice exactly `mid` long. -/
theorem readBytes_at (pre mid post : Bytes) :
    BinaryParser.readBytes
      { buffer := pre ++ (mid ++ post), offset := (pre.length : Int) }
      (mid.length : Int) =
      .ok (mid, { buffer := pre ++ (mid ++ post),
                  offset := (pre.length : Int) + (mid.length : Int) }) := by
  unfold BinaryParser.readBytes BinaryParser.checkBounds
  simp only []
  rw [if_neg (by simp)]
  rw [subarray_of_bounds _ _ _ (by omega) (by omega) (by simp)]
  rw [show pre ++ (mid ++ post) = (pre ++ mid) ++ post from by simp]
  have hto : ((pre.length : Int) + (mid.length : Int)).toNat =
      (pre ++ mid).length := by simp; omega
  rw [hto, List.take_left]
  have hto2 : ((pre.length : Nat) : Int).toNat = pre.length := by omega
  rw [hto2, List.drop_left]

/-- Reading the 4-byte signature from a buffer that starts with `"ANIM"`. -/
theorem readString_sig (post : Bytes) :
    BinaryParser.readString { buffer := FILE_SIGNATURE ++ post, offset := 0 }
      4 =
      .ok (FILE_SIGNATURE,
        { buffer := FILE_SIGNATURE ++ post, offset := 0 + 4 }) := by
  unfold BinaryParser.readString BinaryParser.checkBounds
  simp only []
  rw [if_neg (by simp [FILE_SIGNATURE]; omega)]
  rw [subarray_of_bounds _ _ _ (by omega) (by omega)
    (by simp [FILE_SIGNATURE]; omega)]
  rw [show ((0 : Int) + 4).toNat = FILE_SIGNATURE.length from rfl,
    List.take_left]
  rw [show ((0 : Int)).toNat = 0 from rfl, List.drop_zero]
  rfl

theorem parseSpriteDims_succ (n : Nat) (p : BinaryParser) :
    parseSpriteDims (n + 1) p =
      (match p.readUInt32LE with
      | .error e => .error e
      | .ok (w, p) =>
        match p.readUInt32LE with
        | .error e => .error e
        | .ok (h, p) =>
          match parseSpriteDims n p with
          | .error e => .error e
          | .ok (rest, p) =>
            .ok ({ width := (w : Int), height := (h : Int) } :: rest, p)) :=
  rfl

/-- The dimension-reading loop over a buffer laid out as
`pre ++ dimsBytes dims ++ post`, with the cursor at the table start. -/
theorem parseSpriteDims_at (dims : List SpriteDimension) (pre post : Bytes)
    (hdims : ∀ d ∈ dims, 0 ≤ d.width ∧ d.width < 4294967296 ∧
      0 ≤ d.height ∧ d.height < 4294967296) :
    parseSpriteDims dims.length
      { buffer := pre ++ (dimsBytes dims ++ post),
        offset := (pre.length : Int) } =
      .ok (dims, { buffer := pre ++ (dimsBytes dims ++ post),
                   offset := (pre.length : Int) + 8 * dims.length }) := by
  induction dims generalizing pre with
  | nil =>
    show Except.ok ([], _) = _
    norm_num
  | cons d rest ih =>
    obtain ⟨hw0, hw32, hh0, hh32⟩ := hdims d (by simp)
    have e1 : pre ++ (dimsBytes (d :: rest) ++ post) =
        pre ++ (u32bytes d.width.toNat ++ (u32bytes d.height.toNat ++
          (dimsBytes rest ++ post))) := by
      simp [dimsBytes]
    rw [e1]
    simp only [List.length_cons]
    rw [parseSpriteDims_succ]
    have h1 := readUInt32LE_at pre
      (u32bytes d.height.toNat ++ (dimsBytes rest ++ post)) d.width.toNat
      (by omega)
    simp only [h1]
    have h2 := readUInt32LE_at (pre ++ u32bytes d.width.toNat)
      (dimsBytes rest ++ post) d.height.toNat (by omega)
    rw [show (pre ++ u32bytes d.width.toNat) ++ (u32bytes d.height.toNat ++
          (dimsBytes rest ++ post)) =
        pre ++ (u32bytes d.width.toNat ++ (u32bytes d.height.toNat ++
          (dimsBytes rest ++ post))) from by simp,
      show (((pre ++ u32bytes d.width.toNat).length : Nat) : Int) =
        (pre.length : Int) + 4 from by simp [u32bytes]] at h2
    simp only [h2]
    have h3 := ih (pre ++ u32bytes d.width.toNat ++ u32bytes d.height.toNat)
      (fun x hx => hdims x (by simp [hx]))
    rw [show (pre ++ u32bytes d.width.toNat ++ u32bytes d.height.toNat) ++
          (dimsBytes rest ++ post) =
        pre ++ (u32bytes d.width.toNat ++ (u32bytes d.height.toNat ++
          (dimsBytes rest ++ post))) from by simp,
      show (((pre ++ u32bytes d.width.toNat ++
            u32bytes d.height.toNat).length : Nat) : Int) =
        (pre.length : Int) + 4 + 4 from by simp [u32bytes]; push_cast; ring]
      at h3
    simp only [h3]
    simp only [Except.ok.injEq, Prod.mk.injEq]
    refine ⟨?_, ?_⟩
    · rw [show ((d.width.toNat : Nat) : Int) = d.width from by omega,
        show ((d.height.toNat : Nat) : Int) = d.height from by omega]
    · congr 1
      push_cast
      ring

/-- `parseSpriteInfo` over a buffer holding the stored count and the full
dimension table at the cursor. -/
theorem parseSpriteInfo_at (dims : List SpriteDimension) (pre post : Bytes)
    (hdims : ∀ d ∈ dims, 0 ≤ d.width ∧ d.width < 4294967296 ∧
      0 ≤ d.height ∧ d.height < 4294967296)
    (hcnt : dims.length < 4294967296) :
    parseSpriteInfo
      { buffer := pre ++ (u32bytes dims.length ++ (dimsBytes dims ++ post)),
        offset := (pre.length : Int) } =
      .ok ({ count := (dims.length : Int), dimensions := dims },
        { buffer := pre ++ (u32bytes dims.length ++ (dimsBytes dims ++ post)),
          offset := (pre.length : Int) + 4 + 8 * dims.length }) := by
  unfold parseSpriteInfo
  have h1 := readUInt32LE_at pre (dimsBytes dims ++ post) dims.length hcnt
  simp only [h1]
  have h2 := parseSpriteDims_at dims (pre ++ u32bytes dims.length) post hdims
  rw [show (pre ++ u32bytes dims.length) ++ (dimsBytes dims ++ post) =
        pre ++ (u32bytes dims.length ++ (dimsBytes dims ++ post)) from by
      simp,
    show (((pre ++ u32bytes dims.length).length : Nat) : Int) =
      (pre.length : Int) + 4 from by simp [u32bytes]] at h2
  simp only [h2]

/-- `parseHeader` over a buffer holding the signature and the three header
u32 fields. -/
theorem parseHeader_at (a b c : Nat) (post : Bytes)
    (ha : a < 4294967296) (hb : b < 4294967296) (hc : c < 4294967296) :
    parseHeader { buffer := FILE_SIGNATURE ++ (u32bytes a ++ (u32bytes b ++
        (u32bytes c ++ post))), offset := 0 } =
      .ok ({ signature := FILE_SIGNATURE, version := a, imageDataSize := b,
             metaDataSize := c },
        { buffer := FILE_SIGNATURE ++ (u32bytes a ++ (u32bytes b ++
            (u32bytes c ++ post))), offset := 16 }) := by
  unfold parseHeader
  have hs := readString_sig (u32bytes a ++ (u32bytes b ++ (u32bytes c ++
    post)))
  simp only [hs]
  rw [if_neg (by simp)]
  have h1 := readUInt32LE_at FILE_SIGNATURE (u32bytes b ++ (u32bytes c ++
    post)) a ha
  rw [show ((FILE_SIGNATURE.length : Nat) : Int) = 0 + 4 from by
    norm_num [FILE_SIGNATURE]] at h1
  simp only [h1]
  have h2 := readUInt32LE_at (FILE_SIGNATURE ++ u32bytes a)
    (u32bytes c ++ post) b hb
  rw [show (FILE_SIGNATURE ++ u32bytes a) ++ (u32bytes b ++ (u32bytes c ++
        post)) =
      FILE_SIGNATURE ++ (u32bytes a ++ (u32bytes b ++ (u32bytes c ++ post)))
      from by simp,
    show (((FILE_SIGNATURE ++ u32bytes a).length : Nat) : Int) = 0 + 4 + 4
      from by simp [FILE_SIGNATURE, u32bytes]] at h2
  simp only [h2]
  have h3 := readUInt32LE_at (FILE_SIGNATURE ++ u32bytes a ++ u32bytes b)
    post c hc
  rw [show (FILE_SIGNATURE ++ u32bytes a ++ u32bytes b) ++ (u32bytes c ++
        post) =  
      FILE_SIGNATURE ++ (u32bytes a ++ (u32bytes b ++ (u32bytes c ++ post)))
      from by simp,
    show (((FILE_SIGNATURE ++ u32bytes a ++ u32bytes b).length : Nat) : Int) =
      0 + 4 + 4 + 4 from by simp [FILE_SIGNATURE, u32bytes]] at h3
  simp only [h3]
  norm_num

/-- Decoding the exact buffer the encoder produced (count equal to the
dimension count, all u32 values in range) recovers the normalized metadata,
the sprite info and the payload. -/
theorem decode_encoded_buffer (m : H5AnimateMeta) (si : SpriteInfo)
    (w : Bytes) (hcnt : si.count = (si.dimensions.length : Int))
    (hdims : ∀ d ∈ si.dimensions, 0 ≤ d.width ∧ d.width < 4294967296 ∧
      0 ≤ d.height ∧ d.height < 4294967296)
    (hids : getSpriteInfoSize si + (w.length : Int) < 4294967296)
    (hmds : ((stringifyMeta m).length : Int) < 4294967296) :
    decodeH5Animate (encHeadBytes m si w ++ dimsBytes si.dimensions ++ w ++
        stringifyMeta m) =
      .ok { meta := metaJsonNormalized m, spriteInfo := si,
            webpData := w } := by
  have hsis : getSpriteInfoSize si = 4 + si.count * 8 := rfl
  have hcb : si.count.toNat = si.dimensions.length := by omega
  have hB : encHeadBytes m si w ++ dimsBytes si.dimensions ++ w ++
      stringifyMeta m =
      FILE_SIGNATURE ++ (u32bytes 1 ++
        (u32bytes (getSpriteInfoSize si + (w.length : Int)).toNat ++
          (u32bytes (stringifyMeta m).length ++
            (u32bytes si.dimensions.length ++
              (dimsBytes si.dimensions ++ (w ++ stringifyMeta m)))))) := by
    unfold encHeadBytes
    rw [hcb]
    simp [List.append_assoc]
  unfold decodeH5Animate
  rw [hB]
  have hh := parseHeader_at 1 (getSpriteInfoSize si + (w.length : Int)).toNat
    (stringifyMeta m).length
    (u32bytes si.dimensions.length ++
      (dimsBytes si.dimensions ++ (w ++ stringifyMeta m)))
    (by norm_num) (by omega) (by omega)
  simp only [hh]
  have hs := parseSpriteInfo_at si.dimensions
    (FILE_SIGNATURE ++ u32bytes 1 ++
      u32bytes (getSpriteInfoSize si + (w.length : Int)).toNat ++
      u32bytes (stringifyMeta m).length)
    (w ++ stringifyMeta m) hdims (by omega)
  rw [show (FILE_SIGNATURE ++ u32bytes 1 ++
        u32bytes (getSpriteInfoSize si + (w.length : Int)).toNat ++
        u32bytes (stringifyMeta m).length) ++
        (u32bytes si.dimensions.length ++
          (dimsBytes si.dimensions ++ (w ++ stringifyMeta m))) =
      FILE_SIGNATURE ++ (u32bytes 1 ++
        (u32bytes (getSpriteInfoSize si + (w.length : Int)).toNat ++
          (u32bytes (stringifyMeta m).length ++
            (u32bytes si.dimensions.length ++
              (dimsBytes si.dimensions ++ (w ++ stringifyMeta m))))))
      from by simp,
    show (((FILE_SIGNATURE ++ u32bytes 1 ++
        u32bytes (getSpriteInfoSize si + (w.length : Int)).toNat ++
        u32bytes (stringifyMeta m).length).length : Nat) : Int) = 16
      from by simp [FILE_SIGNATURE, u32bytes]] at hs
  simp only [hs]
  have hwds : ((getSpriteInfoSize si + (w.length : Int)).toNat : Int) -
      getSpriteInfoSize
        (SpriteInfo.mk ((si.dimensions.length : Int)) si.dimensions) =
      (w.length : Int) := by
    rw [show getSpriteInfoSize
        (SpriteInfo.mk ((si.dimensions.length : Int)) si.dimensions) =
      4 + (si.dimensions.length : Int) * 8 from rfl]
    omega
  simp only [hwds]
  have hr1 := readBytes_at
    (FILE_SIGNATURE ++ u32bytes 1 ++
      u32bytes (getSpriteInfoSize si + (w.length : Int)).toNat ++
      u32bytes (stringifyMeta m).length ++ u32bytes si.dimensions.length ++
      dimsBytes si.dimensions)
    w (stringifyMeta m)
  rw [show (FILE_SIGNATURE ++ u32bytes 1 ++
        u32bytes (getSpriteInfoSize si + (w.length : Int)).toNat ++
        u32bytes (stringifyMeta m).length ++ u32bytes si.dimensions.length ++
        dimsBytes si.dimensions) ++ (w ++ stringifyMeta m) =
      FILE_SIGNATURE ++ (u32bytes 1 ++
        (u32bytes (getSpriteInfoSize si + (w.length : Int)).toNat ++
          (u32bytes (stringifyMeta m).length ++
            (u32bytes si.dimensions.length ++
              (dimsBytes si.dimensions ++ (w ++ stringifyMeta m))))))
      from by simp,
    show (((FILE_SIGNATURE ++ u32bytes 1 ++
        u32bytes (getSpriteInfoSize si + (w.length : Int)).toNat ++
        u32bytes (stringifyMeta m).length ++ u32bytes si.dimensions.length ++
        dimsBytes si.dimensions).length : Nat) : Int) =
      16 + 4 + 8 * (si.dimensions.length : Int)
      from by
        simp [FILE_SIGNATURE, u32bytes, dimsBytes_length]
        push_cast
        ring] at hr1
  simp only [hr1]
  have hr2 := readBytes_at
    (FILE_SIGNATURE ++ u32bytes 1 ++
      u32bytes (getSpriteInfoSize si + (w.length : Int)).toNat ++
      u32bytes (stringifyMeta m).length ++ u32bytes si.dimensions.length ++
      dimsBytes si.dimensions ++ w)
    (stringifyMeta m) []
  rw [show (FILE_SIGNATURE ++ u32bytes 1 ++
        u32bytes (getSpriteInfoSize si + (w.length : Int)).toNat ++
        u32bytes (stringifyMeta m).length ++ u32bytes si.dimensions.length ++
        dimsBytes si.dimensions ++ w) ++ (stringifyMeta m ++ []) =
      FILE_SIGNATURE ++ (u32bytes 1 ++
        (u32bytes (getSpriteInfoSize si + (w.length : Int)).toNat ++
          (u32bytes (stringifyMeta m).length ++
            (u32bytes si.dimensions.length ++
              (dimsBytes si.dimensions ++ (w ++ stringifyMeta m))))))
      from by simp,
    show (((FILE_SIGNATURE ++ u32bytes 1 ++
        u32bytes (getSpriteInfoSize si + (w.length : Int)).toNat ++
        u32bytes (stringifyMeta m).length ++ u32bytes si.dimensions.length ++
        dimsBytes si.dimensions ++ w).length : Nat) : Int) =
      16 + 4 + 8 * (si.dimensions.length : Int) + (w.length : Int)
      from by
        simp [FILE_SIGNATURE, u32bytes, dimsBytes_length]
        push_cast
        ring] at hr2
  simp only [hr2]
  simp only [jsonParse_stringifyMeta, convertArraysToObjects_raw]
  rw [show SpriteInfo.mk ((si.dimensions.length : Int)) si.dimensions = si
    from by rw [← hcnt]]

/-- C1: for every valid input triple - a well-formed `AnimationMetadata`, a
sprite info whose `count` equals `dimensions.length` with positive in-range
widths/heights, and a byte payload - with the two stored u32 size fields in
range, `encodeH5Animate` succeeds and `decodeH5Animate` on the encoded
buffer returns the sprite info and payload structurally equal to the inputs
and the metadata structurally equal to the input in object shape with
absent `mirror`/`rotate` fields normalized to 0 (`metaJsonNormalized`). -/
theorem roundtrip_decode_encode (m : H5AnimateMeta) (si : SpriteInfo)
    (w : Bytes) (hm : WellFormedMeta m) (hsi : ValidSpriteInfo si)
    (hids : getSpriteInfoSize si + (w.length : Int) < 4294967296)
    (hmds : ((stringifyMeta m).length : Int) < 4294967296) :
    ∃ buf, encodeH5Animate (some m) (some si) (some w) = .ok buf ∧
      decodeH5Animate buf =
        .ok { meta := metaJsonNormalized m, spriteInfo := si,
              webpData := w } := by
  obtain ⟨hcnt, hdims2⟩ := hsi
  have hdims : ∀ d ∈ si.dimensions, 0 ≤ d.width ∧ d.width < 4294967296 ∧
      0 ≤ d.height ∧ d.height < 4294967296 := by
    intro d hd
    have := hdims2 d hd
    exact ⟨by omega, by omega, by omega, by omega⟩
  have henc := encode_ok_of m si w (by omega) (by omega) hdims hids hmds
  have hrep : 8 * (si.count.toNat - si.dimensions.length) = 0 := by omega
  rw [hrep] at henc
  simp only [List.replicate_zero, List.append_nil] at henc
  exact ⟨_, henc, decode_encoded_buffer m si w hcnt hdims hids hmds⟩

/-- A concrete metadata/sprite-info pair for the round-trip witness: one
frame with a sound and an object without `mirror`/`rotate`, one empty
frame, one 2x3 sprite. -/
def roundtripSound : SoundMeta := { name := [97, 46, 109, 112, 51] }

def roundtripObject : H5AnimateObject :=
  { index := 0, x := 1, y := 2, scale := 3, opacity := 4 }

def roundtripFrame : H5AnimateFrame :=
  { sound := some [roundtripSound], objects := some [roundtripObject] }

def roundtripMeta : H5AnimateMeta :=
  { ratio := 2, frame := [roundtripFrame, {}] }

def roundtripSprite : SpriteInfo :=
  { count := 1, dimensions := [{ width := 2, height := 3 }] }

/-- Witness for C1: the round-trip at a concrete valid input. -/
theorem roundtrip_decode_encode_witness :
    WellFormedMeta roundtripMeta ∧ ValidSpriteInfo roundtripSprite ∧
      getSpriteInfoSize roundtripSprite + (([9, 8] : Bytes).length : Int) <
        4294967296 ∧
      ((stringifyMeta roundtripMeta).length : Int) < 4294967296 ∧
      ∃ buf, encodeH5Animate (some roundtripMeta) (some roundtripSprite)
          (some [9, 8]) = .ok buf ∧
        decodeH5Animate buf =
          .ok { meta := metaJsonNormalized roundtripMeta,
                spriteInfo := roundtripSprite, webpData := [9, 8] } :=
  ⟨by decide, by decide, by decide, by decide,
    roundtrip_decode_encode roundtripMeta roundtripSprite [9, 8] (by decide)
      (by decide) (by decide) (by decide)⟩

end H5A
